import Mathlib

/-!
# ERC-20 / HTLC chaincode (`token_contract.go`): a shallow embedding

The chaincode is a Hyperledger Fabric contract.  Its Go `int` values are 64-bit
two's complement integers; they are embedded as `Int` with an explicit wrap
wherever the Go code performs arithmetic.  A Go result `(int, error)` is the
pair `Int × Option String`, a Go `error` is `Option String` (`none` is `nil`).
-/

namespace Chaincode

/-! ## Machine integers -/

/-- Smallest value of the Go type `int` on a 64-bit platform. -/
def minInt : Int := -(2 ^ 63)

/-- Largest value of the Go type `int` on a 64-bit platform. -/
def maxInt : Int := 2 ^ 63 - 1

/-- Membership of the Go type `int`. -/
def IsInt (x : Int) : Prop := minInt ≤ x ∧ x ≤ maxInt

instance (x : Int) : Decidable (IsInt x) := by
  unfold IsInt; exact inferInstance

/-- Reduction of a mathematical integer to the 64-bit two's complement value
that Go's `int` arithmetic stores. -/
def wrap (x : Int) : Int := (x + 2 ^ 63) % 2 ^ 64 - 2 ^ 63

/-! ## `strconv`: decimal text of an `int`

Balances, the total supply and allowances are stored in the world state as the
decimal text written by `strconv.Itoa` and read back with `strconv.Atoi`, whose
error result the contract always discards.  Both functions belong to the Go
standard library; they are embedded here from their documented behaviour. -/

/-- The ASCII digit for `d < 10`. -/
def digitChar (d : Nat) : Char := Char.ofNat (48 + d)

/-- Go `formatBits` in base 10: the digits of `u` are produced from the least
significant one and placed in front of `acc`.  The first argument bounds the
number of iterations; `u + 1` is always enough. -/
def formatBits : Nat → Nat → List Char → List Char
  | 0, _, acc => acc
  | fuel + 1, u, acc =>
    if u < 10 then digitChar u :: acc
    else formatBits fuel (u / 10) (digitChar (u % 10) :: acc)

/-- Go `strconv.Itoa`: a minus sign for a negative value, then the decimal
digits of the magnitude without leading zeros. -/
def Itoa (i : Int) : String :=
  if i < 0 then String.mk ('-' :: formatBits (i.natAbs + 1) i.natAbs [])
  else String.mk (formatBits (i.natAbs + 1) i.natAbs [])

/-- The two kinds of `strconv.NumError`. -/
inductive NumError where
  | invalid
  | range
  deriving DecidableEq

/-- Largest `uint64`. -/
def maxUint64 : Nat := 2 ^ 64 - 1

/-- The bound `maxUint64 / 10 + 1` from which `n * 10` overflows. -/
def cutoff64 : Nat := maxUint64 / 10 + 1

/-- The digit loop of Go `strconv.ParseUint(s, 10, 64)`: a byte that is not a
decimal digit gives `(0, invalid)`, an overflow gives `(maxUint64, range)` at
the digit where it happens. -/
def parseUintLoop : List Char → Nat → Nat × Option NumError
  | [], n => (n, none)
  | c :: cs, n =>
    if 48 ≤ c.toNat ∧ c.toNat ≤ 57 then
      let d := c.toNat - 48
      if n ≥ cutoff64 then (maxUint64, some NumError.range)
      else
        let n10 := n * 10
        let n1 := (n10 + d) % 2 ^ 64
        if n1 < n10 ∨ n1 > maxUint64 then (maxUint64, some NumError.range)
        else parseUintLoop cs n1
    else (0, some NumError.invalid)

/-- Go `strconv.ParseUint(s, 10, 64)`. -/
def ParseUint (s : List Char) : Nat × Option NumError :=
  match s with
  | [] => (0, some NumError.invalid)
  | _ => parseUintLoop s 0

/-- Go `strconv.ParseInt(s, 10, 0)`: an optional sign, then `ParseUint`; a
magnitude outside `int` is clamped and reported as a range error. -/
def ParseInt (s : List Char) : Int × Option NumError :=
  match s with
  | [] => (0, some NumError.invalid)
  | c :: cs =>
    let neg := decide (c = '-')
    let body := if c = '+' ∨ c = '-' then cs else s
    match ParseUint body with
    | (_, some NumError.invalid) => (0, some NumError.invalid)
    | (un, _) =>
      let cutoff : Nat := 2 ^ 63
      if !neg && decide (un ≥ cutoff) then (maxInt, some NumError.range)
      else if neg && decide (un > cutoff) then (minInt, some NumError.range)
      else
        let n := wrap (un : Int)
        (if neg then wrap (-n) else n, none)

/-- Go `strconv.Atoi`.  Its fast path for short strings computes the same
result as `ParseInt`, so only the latter is spelled out. -/
def Atoi (s : String) : Int × Option NumError := ParseInt s.data

/-! ## The Fabric transaction context

A transaction reads the committed world state and collects its writes in a
write set; `GetState` never sees the writes of its own transaction.  The write
set is applied only when the transaction returns no error.  The peer itself is
taken to be reachable: `GetState`, `PutState` and `SetEvent` report no error of
their own. -/

/-- The committed world state: the value stored under a key, if any. -/
abbrev WorldState := String → Option String

/-- The submitting client identity as seen through `GetMSPID` and `GetID`,
each with its Go error result. -/
structure ClientIdentity where
  mspID : String × Option String
  id : String × Option String

/-- Go `event`: the payload of a Transfer or Approval event. -/
structure Event where
  From : String
  To : String
  Value : Int
  deriving DecidableEq

/-- Go `HTLC`; `TimeLock` is a point in time, here in nanoseconds. -/
structure HTLC where
  Sender : String
  Recipient : String
  Amount : Int
  HashLock : String
  TimeLock : Int
  Claimed : Bool
  Reverted : Bool
  ClaimPassword : String
  deriving DecidableEq

/-- Library functions the contract calls on HTLC records, with their Go error
results: `json.Marshal`, `json.Unmarshal` and `time.Parse(time.RFC3339, _)`. -/
structure Lib where
  jsonMarshal : HTLC → String × Option String
  jsonUnmarshal : String → HTLC × Option String
  timeParse : String → Int × Option String

/-- The transaction context: who submits, what is committed, the clock, and
the effects collected so far.  The event payload is kept as the Go struct that
is handed to `json.Marshal`, which cannot fail on it. -/
structure Ctx where
  identity : ClientIdentity
  state : WorldState
  now : Int
  writes : List (String × String)
  event : Option (String × Event)

/-- A context at the start of a transaction. -/
def Ctx.start (identity : ClientIdentity) (state : WorldState) (now : Int) : Ctx :=
  { identity := identity, state := state, now := now, writes := [], event := none }

/-- Stub `GetState`: the committed value, `none` for Go `nil`. -/
def GetState (ctx : Ctx) (key : String) : Option String × Option String :=
  (ctx.state key, none)

/-- Stub `PutState`: the write joins the write set.  The shim's refusal of an
empty key is left out; the contract's own keys are never empty, and a client
ID is not either. -/
def PutState (ctx : Ctx) (key : String) (value : String) : Ctx × Option String :=
  ({ ctx with writes := ctx.writes ++ [(key, value)] }, none)

/-- Stub `SetEvent`: the last event set is the one the transaction emits. -/
def SetEvent (ctx : Ctx) (name : String) (payload : Event) : Ctx × Option String :=
  ({ ctx with event := some (name, payload) }, none)

/-- The shim rejects a composite-key part that holds U+0000 or U+10FFFF. -/
def validateCompositeKeyAttribute (str : String) : Option String :=
  if str.data.any (fun c => c.toNat = 0 || c.toNat = 0x10FFFF) then
    some "input contains unicode U+0000 or U+10FFFF"
  else none

/-- The loop of `CreateCompositeKey` over the attributes. -/
def compositeKeyLoop (ck : String) : List String → String × Option String
  | [] => (ck, none)
  | att :: rest =>
    match validateCompositeKeyAttribute att with
    | some err => ("", some err)
    | none => compositeKeyLoop (ck ++ att ++ String.mk [Char.ofNat 0]) rest

/-- Stub `CreateCompositeKey`: U+0000, the object type, U+0000, then every
attribute followed by U+0000. -/
def CreateCompositeKey (objectType : String) (attributes : List String) :
    String × Option String :=
  match validateCompositeKeyAttribute objectType with
  | some err => ("", some err)
  | none =>
    compositeKeyLoop (String.mk [Char.ofNat 0] ++ objectType ++ String.mk [Char.ofNat 0])
      attributes

/-- One write applied to a world state. -/
def put (st : WorldState) (key value : String) : WorldState :=
  fun k => if k = key then some value else st k

/-- The write set applied in order. -/
def commit (st : WorldState) : List (String × String) → WorldState
  | [] => st
  | (k, v) :: rest => commit (put st k v) rest

/-- The world state after a transaction: the write set is committed exactly
when the transaction returned no error. -/
def settle (r : Ctx × Option String) : WorldState :=
  match r.2 with
  | none => commit r.1.state r.1.writes
  | some _ => r.1.state

/-! ## Arithmetic helpers of the contract -/

/-- Go `add`: the sum is computed with wrap-around and then tested for
overflow; on overflow the result is `(0, error)`. -/
def add (b q : Int) : Int × Option String :=
  let sum := wrap (q + b)
  if (decide (sum < q) || decide (sum < b)) == (decide (b ≥ 0) && decide (q ≥ 0)) then
    (0, some ("Math: addition overflow occurred " ++ Itoa b ++ " + " ++ Itoa q))
  else
    (sum, none)

/-- Go `sub`: rejects a subtrahend that is not positive and a minuend that is
too small, and otherwise returns the difference. -/
def sub (b q : Int) : Int × Option String :=
  if q ≤ 0 then
    (0, some ("Error: the subtraction number is " ++ Itoa q ++
      ", it should be greater than 0"))
  else if b < q then
    (0, some ("Error: the number " ++ Itoa b ++ " is not enough to be subtracted by " ++
      Itoa q))
  else
    let diff := wrap (b - q)
    (diff, none)

/-- The integer the contract reads under a key: the stored text through
`Atoi`, and `0` when nothing is stored. -/
def storedInt (st : WorldState) (key : String) : Int :=
  match st key with
  | none => 0
  | some bytes => (Atoi bytes).1

/-! ## The contract -/

/-- Key of the total supply in the world state. -/
def totalSupplyKey : String := "totalSupply"

/-- Object type of the composite keys that hold allowances. -/
def allowancePrefix : String := "allowance"

/-- Go `transferHelper`: moves `value` from account `fromID` to account `toID`
(the Go parameters `from` and `to`). -/
def transferHelper (ctx : Ctx) (fromID toID : String) (value : Int) : Ctx × Option String :=
  if fromID = toID then
    (ctx, some "cannot transfer to and from same client account")
  else if value < 0 then
    (ctx, some "transfer amount cannot be negative")
  else
    match GetState ctx fromID with
    | (_, some err) =>
      (ctx, some ("failed to read client account " ++ fromID ++ " from world state: " ++ err))
    | (none, none) => (ctx, some ("client account " ++ fromID ++ " has no balance"))
    | (some fromCurrentBalanceBytes, none) =>
      let fromCurrentBalance := (Atoi fromCurrentBalanceBytes).1
      if fromCurrentBalance < value then
        (ctx, some ("client account " ++ fromID ++ " has insufficient funds"))
      else
        match GetState ctx toID with
        | (_, some err) =>
          (ctx, some ("failed to read recipient account " ++ toID ++ " from world state: " ++
            err))
        | (toCurrentBalanceBytes, none) =>
          let toCurrentBalance :=
            match toCurrentBalanceBytes with
            | none => 0
            | some bytes => (Atoi bytes).1
          match sub fromCurrentBalance value with
          | (_, some err) => (ctx, some err)
          | (fromUpdatedBalance, none) =>
            match add toCurrentBalance value with
            | (_, some err) => (ctx, some err)
            | (toUpdatedBalance, none) =>
              match PutState ctx fromID (Itoa fromUpdatedBalance) with
              | (ctx1, some err) => (ctx1, some err)
              | (ctx1, none) =>
                match PutState ctx1 toID (Itoa toUpdatedBalance) with
                | (ctx2, some err) => (ctx2, some err)
                | (ctx2, none) => (ctx2, none)

/-- Go `Transfer`: the debited account is the argument `sender`. -/
def Transfer (ctx : Ctx) (sender recipient : String) (amount : Int) : Ctx × Option String :=
  match transferHelper ctx sender recipient amount with
  | (ctx1, some err) => (ctx1, some ("failed to transfer: " ++ err))
  | (ctx1, none) =>
    match SetEvent ctx1 "Transfer" { From := sender, To := recipient, Value := amount } with
    | (ctx2, some err) => (ctx2, some ("failed to set event: " ++ err))
    | (ctx2, none) => (ctx2, none)

/-- Go `Mint`.  The committed state is what both `GetState` calls read. -/
def Mint (ctx : Ctx) (amount : Int) : Ctx × Option String :=
  match ctx.identity.mspID with
  | (_, some err) => (ctx, some ("failed to get MSPID: " ++ err))
  | (clientMSPID, none) =>
    if clientMSPID ≠ "Org1MSP" then
      (ctx, some "client is not authorized to mint new tokens")
    else
      match ctx.identity.id with
      | (_, some err) => (ctx, some ("failed to get client id: " ++ err))
      | (minter, none) =>
        if amount ≤ 0 then
          (ctx, some "mint amount must be a positive integer")
        else
          match GetState ctx minter with
          | (_, some err) =>
            (ctx, some ("failed to read minter account " ++ minter ++
              " from world state: " ++ err))
          | (currentBalanceBytes, none) =>
            let currentBalance :=
              match currentBalanceBytes with
              | none => 0
              | some bytes => (Atoi bytes).1
            match add currentBalance amount with
            | (_, some err) => (ctx, some err)
            | (updatedBalance, none) =>
              match PutState ctx minter (Itoa updatedBalance) with
              | (ctx1, some err) => (ctx1, some err)
              | (ctx1, none) =>
                match GetState ctx1 totalSupplyKey with
                | (_, some err) =>
                  (ctx1, some ("failed to retrieve total token supply: " ++ err))
                | (totalSupplyBytes, none) =>
                  let totalSupply :=
                    match totalSupplyBytes with
                    | none => 0
                    | some bytes => (Atoi bytes).1
                  match add totalSupply amount with
                  | (_, some err) => (ctx1, some err)
                  | (totalSupply1, none) =>
                    match PutState ctx1 totalSupplyKey (Itoa totalSupply1) with
                    | (ctx2, some err) => (ctx2, some err)
                    | (ctx2, none) =>
                      match SetEvent ctx2 "Transfer"
                          { From := "0x0", To := minter, Value := amount } with
                      | (ctx3, some err) => (ctx3, some ("failed to set event: " ++ err))
                      | (ctx3, none) => (ctx3, none)

/-- Go `Burn`. -/
def Burn (ctx : Ctx) (amount : Int) : Ctx × Option String :=
  match ctx.identity.mspID with
  | (_, some err) => (ctx, some ("failed to get MSPID: " ++ err))
  | (clientMSPID, none) =>
    if clientMSPID ≠ "Org1MSP" then
      (ctx, some "client is not authorized to mint new tokens")
    else
      match ctx.identity.id with
      | (_, some err) => (ctx, some ("failed to get client id: " ++ err))
      | (minter, none) =>
        if amount ≤ 0 then
          (ctx, some "burn amount must be a positive integer")
        else
          match GetState ctx minter with
          | (_, some err) =>
            (ctx, some ("failed to read minter account " ++ minter ++
              " from world state: " ++ err))
          | (none, none) => (ctx, some "The balance does not exist")
          | (some currentBalanceBytes, none) =>
            let currentBalance := (Atoi currentBalanceBytes).1
            match sub currentBalance amount with
            | (_, some err) => (ctx, some err)
            | (updatedBalance, none) =>
              match PutState ctx minter (Itoa updatedBalance) with
              | (ctx1, some err) => (ctx1, some err)
              | (ctx1, none) =>
                match GetState ctx1 totalSupplyKey with
                | (_, some err) =>
                  (ctx1, some ("failed to retrieve total token supply: " ++ err))
                | (none, none) => (ctx1, some "totalSupply does not exist")
                | (some totalSupplyBytes, none) =>
                  let totalSupply := (Atoi totalSupplyBytes).1
                  match sub totalSupply amount with
                  | (_, some err) => (ctx1, some err)
                  | (totalSupply1, none) =>
                    match PutState ctx1 totalSupplyKey (Itoa totalSupply1) with
                    | (ctx2, some err) => (ctx2, some err)
                    | (ctx2, none) =>
                      match SetEvent ctx2 "Transfer"
                          { From := minter, To := "0x0", Value := amount } with
                      | (ctx3, some err) => (ctx3, some ("failed to set event: " ++ err))
                      | (ctx3, none) => (ctx3, none)

/-- Go `BalanceOf`. -/
def BalanceOf (ctx : Ctx) (account : String) : Int × Option String :=
  match GetState ctx account with
  | (_, some err) => (0, some ("failed to read from world state: " ++ err))
  | (none, none) => (0, some ("the account " ++ account ++ " does not exist"))
  | (some balanceBytes, none) => ((Atoi balanceBytes).1, none)

/-- Go `ClientAccountBalance`. -/
def ClientAccountBalance (ctx : Ctx) : Int × Option String :=
  match ctx.identity.id with
  | (_, some err) => (0, some ("failed to get client id: " ++ err))
  | (clientID, none) =>
    match GetState ctx clientID with
    | (_, some err) => (0, some ("failed to read from world state: " ++ err))
    | (none, none) => (0, some ("the account " ++ clientID ++ " does not exist"))
    | (some balanceBytes, none) => ((Atoi balanceBytes).1, none)

/-- Go `ClientAccountID`. -/
def ClientAccountID (ctx : Ctx) : String × Option String :=
  match ctx.identity.id with
  | (_, some err) => ("", some ("failed to get client id: " ++ err))
  | (clientAccountID, none) => (clientAccountID, none)

/-- Go `TotalSupply`. -/
def TotalSupply (ctx : Ctx) : Int × Option String :=
  match GetState ctx totalSupplyKey with
  | (_, some err) => (0, some ("failed to retrieve total token supply: " ++ err))
  | (none, none) => (0, none)
  | (some totalSupplyBytes, none) => ((Atoi totalSupplyBytes).1, none)

/-- Go `Approve`: the allowance of `spender` over the caller's account. -/
def Approve (ctx : Ctx) (spender : String) (value : Int) : Ctx × Option String :=
  match ctx.identity.id with
  | (_, some err) => (ctx, some ("failed to get client id: " ++ err))
  | (owner, none) =>
    match CreateCompositeKey allowancePrefix [owner, spender] with
    | (_, some err) =>
      (ctx, some ("failed to create the composite key for prefix " ++ allowancePrefix ++
        ": " ++ err))
    | (allowanceKey, none) =>
      match PutState ctx allowanceKey (Itoa value) with
      | (ctx1, some err) =>
        (ctx1, some ("failed to update state of smart contract for key " ++ allowanceKey ++
          ": " ++ err))
      | (ctx1, none) =>
        match SetEvent ctx1 "Approval" { From := owner, To := spender, Value := value } with
        | (ctx2, some err) => (ctx2, some ("failed to set event: " ++ err))
        | (ctx2, none) => (ctx2, none)

/-- Go `Allowance`. -/
def Allowance (ctx : Ctx) (owner spender : String) : Int × Option String :=
  match CreateCompositeKey allowancePrefix [owner, spender] with
  | (_, some err) =>
    (0, some ("failed to create the composite key for prefix " ++ allowancePrefix ++
      ": " ++ err))
  | (allowanceKey, none) =>
    match GetState ctx allowanceKey with
    | (_, some err) =>
      (0, some ("failed to read allowance for " ++ allowanceKey ++ " from world state: " ++
        err))
    | (none, none) => (0, none)
    | (some allowanceBytes, none) => ((Atoi allowanceBytes).1, none)

/-- Go `TransferFrom`. -/
def TransferFrom (ctx : Ctx) (fromID toID : String) (value : Int) : Ctx × Option String :=
  match ctx.identity.id with
  | (_, some err) => (ctx, some ("failed to get client id: " ++ err))
  | (spender, none) =>
    match CreateCompositeKey allowancePrefix [fromID, spender] with
    | (_, some err) =>
      (ctx, some ("failed to create the composite key for prefix " ++ allowancePrefix ++
        ": " ++ err))
    | (allowanceKey, none) =>
      match GetState ctx allowanceKey with
      | (_, some err) =>
        (ctx, some ("failed to retrieve the allowance for " ++ allowanceKey ++
          " from world state: " ++ err))
      | (currentAllowanceBytes, none) =>
        let currentAllowance := (Atoi (currentAllowanceBytes.getD "")).1
        if currentAllowance < value then
          (ctx, some "spender does not have enough allowance- for transfer")
        else
          match transferHelper ctx fromID toID value with
          | (ctx1, some err) => (ctx1, some ("failed to transfer: " ++ err))
          | (ctx1, none) =>
            match sub currentAllowance value with
            | (_, some err) => (ctx1, some err)
            | (updatedAllowance, none) =>
              match PutState ctx1 allowanceKey (Itoa updatedAllowance) with
              | (ctx2, some err) => (ctx2, some err)
              | (ctx2, none) =>
                match SetEvent ctx2 "Transfer" { From := fromID, To := toID, Value := value } with
                | (ctx3, some err) => (ctx3, some ("failed to set event: " ++ err))
                | (ctx3, none) => (ctx3, none)

/-- Go `TransferConditional`. -/
def TransferConditional (lib : Lib) (ctx : Ctx) (recipient : String) (amount : Int)
    (hashLock timeLock claimPassword : String) : Ctx × Option String :=
  match ctx.identity.mspID with
  | (_, some err) => (ctx, some ("failed to get MSPID: " ++ err))
  | (clientMSPID, none) =>
    if clientMSPID ≠ "Org1MSP" then
      (ctx, some "client is not authorized to do Conditional Transfer")
    else
      match ctx.identity.id with
      | (_, some err) => (ctx, some ("failed to get client id: " ++ err))
      | (clientID, none) =>
        match transferHelper ctx clientID recipient amount with
        | (ctx1, some err) => (ctx1, some ("failed to transfer: " ++ err))
        | (ctx1, none) =>
          match lib.timeParse timeLock with
          | (_, some err) => (ctx1, some ("failed to parse timeLock: " ++ err))
          | (timeLockTime, none) =>
            let htlc : HTLC :=
              { Sender := clientID, Recipient := recipient, Amount := amount,
                HashLock := hashLock, TimeLock := timeLockTime, Claimed := false,
                Reverted := false, ClaimPassword := claimPassword }
            match lib.jsonMarshal htlc with
            | (_, some err) => (ctx1, some ("failed to marshal HTLC details: " ++ err))
            | (htlcBytes, none) =>
              match PutState ctx1 hashLock htlcBytes with
              | (ctx2, some err) =>
                (ctx2, some ("failed to put HTLC details in the world state: " ++ err))
              | (ctx2, none) => (ctx2, none)

/-- Go `GetHashTimeLock`; its result `(*HTLC, error)` is either `(nil, err)` or
a record with a `nil` error. -/
def GetHashTimeLock (lib : Lib) (ctx : Ctx) (hashLock : String) : Except String HTLC :=
  match GetState ctx hashLock with
  | (_, some err) =>
    Except.error ("failed to read HTLC details from the world state: " ++ err)
  | (none, none) => Except.error ("HTLC not found for hashLock: " ++ hashLock)
  | (some htlcBytes, none) =>
    match lib.jsonUnmarshal htlcBytes with
    | (_, some err) => Except.error ("failed to unmarshal HTLC details: " ++ err)
    | (htlc, none) => Except.ok htlc

/-- Go `Claim`.  The time-lock error of the source also prints the two times;
only its fixed text is kept. -/
def Claim (lib : Lib) (ctx : Ctx) (hashLock claimPassword : String) : Ctx × Option String :=
  match ctx.identity.mspID with
  | (_, some err) => (ctx, some ("failed to get MSPID: " ++ err))
  | (clientMSPID, none) =>
    if clientMSPID ≠ "Org1MSP" then
      (ctx, some "client is not authorized to Claim")
    else
      match GetHashTimeLock lib ctx hashLock with
      | Except.error err => (ctx, some err)
      | Except.ok htlc =>
        let clientID := ctx.identity.id.1
        if htlc.Claimed then
          (ctx, some "invalid claim: HTLC already claimed")
        else if htlc.Reverted then
          (ctx, some "invalid claim: HTLC already reverted")
        else if htlc.ClaimPassword ≠ claimPassword then
          (ctx, some "invalid claim: incorrect claim password")
        else if ctx.now < htlc.TimeLock then
          (ctx, some "invalid claim: timelock not yet expired")
        else
          match Transfer ctx clientID htlc.Recipient htlc.Amount with
          | (ctx1, some err) => (ctx1, some err)
          | (ctx1, none) =>
            match lib.jsonMarshal { htlc with Claimed := true } with
            | (_, some err) =>
              (ctx1, some ("failed to marshal updated HTLC details: " ++ err))
            | (htlcBytes, none) =>
              match PutState ctx1 hashLock htlcBytes with
              | (ctx2, some err) =>
                (ctx2, some ("failed to update HTLC details in the world state: " ++ err))
              | (ctx2, none) => (ctx2, none)

/-- Go `Revert`. -/
def Revert (lib : Lib) (ctx : Ctx) (hashLock : String) : Ctx × Option String :=
  match ctx.identity.mspID with
  | (_, some err) => (ctx, some ("failed to get MSPID: " ++ err))
  | (clientMSPID, none) =>
    if clientMSPID ≠ "Org1MSP" then
      (ctx, some "client is not authorized to Revert")
    else
      match GetHashTimeLock lib ctx hashLock with
      | Except.error err => (ctx, some err)
      | Except.ok htlc =>
        if htlc.Claimed then
          (ctx, some "invalid Revert: HTLC already claimed")
        else if htlc.Reverted then
          (ctx, some "invalid Revert: HTLC already reverted")
        else if ctx.now < htlc.TimeLock then
          (ctx, some "invalid Revert: timelock not yet expired")
        else
          let clientID := ctx.identity.id.1
          match Transfer ctx htlc.Recipient clientID htlc.Amount with
          | (ctx1, some err) => (ctx1, some err)
          | (ctx1, none) =>
            match lib.jsonMarshal { htlc with Reverted := true } with
            | (_, some err) =>
              (ctx1, some ("failed to marshal updated HTLC details: " ++ err))
            | (htlcBytes, none) =>
              match PutState ctx1 hashLock htlcBytes with
              | (ctx2, some err) =>
                (ctx2, some ("failed to update HTLC details in the world state: " ++ err))
              | (ctx2, none) => (ctx2, none)

/-! ## Sample worlds -/

/-- A client of Org1MSP whose account ID is `alice`. -/
def alice : ClientIdentity :=
  { mspID := ("Org1MSP", none), id := ("alice", none) }

/-- A client of another organisation, with account ID `mallory`. -/
def mallory : ClientIdentity :=
  { mspID := ("Org2MSP", none), id := ("mallory", none) }

/-- A world in which `alice` holds all 100 tokens. -/
def sampleState : WorldState :=
  fun k => if k = "alice" then some "100" else if k = "totalSupply" then some "100" else none

/-- A spender, `bob`. -/
def bob : ClientIdentity :=
  { mspID := ("Org2MSP", none), id := ("bob", none) }

/-- A world in which `alice` and `carol` hold 100 tokens each and `bob` has an
allowance of 50 on either account. -/
def overdrawState : WorldState :=
  fun k =>
    if k = "alice" then some "100"
    else if k = "carol" then some "100"
    else if k = "\x00allowance\x00alice\x00bob\x00" then some "50"
    else if k = "\x00allowance\x00carol\x00bob\x00" then some "50"
    else none

/-- The world after `bob` has moved 50 from `carol` to the account whose ID
spells the allowance key of `(alice, bob)`. -/
def overdrawStateAfterFirst : WorldState :=
  settle (TransferFrom (Ctx.start bob overdrawState 0) "carol"
    "\x00allowance\x00alice\x00bob\x00" 50)

/-- The world after `bob` has then moved 100 from `alice` to himself. -/
def overdrawStateAfterSecond : WorldState :=
  settle (TransferFrom (Ctx.start bob overdrawStateAfterFirst 0) "alice" "bob" 100)

/-- A stand-in for the JSON and time libraries: every HTLC is written as the
same text, nothing is read back, and a time lock is given as decimal nanoseconds. -/
def sampleLib : Lib :=
  { jsonMarshal := fun _ => ("htlc", none),
    jsonUnmarshal := fun _ =>
      ({ Sender := "", Recipient := "", Amount := 0, HashLock := "", TimeLock := 0,
         Claimed := false, Reverted := false, ClaimPassword := "" },
        some "unexpected end of JSON input"),
    timeParse := fun s => ((Atoi s).1, none) }

end Chaincode

/-!
# firefly-fabconnect: event keys, signer caches, enrollment, WebSocket connection

The gateway's tasks talk through channels and mutex-guarded maps.  Each
operation below is embedded as one atomic step on explicit state; what the
environment decides (a creator's result, the outcome of a `select`, the next
frame on the socket) is an argument of the step.
-/

namespace Fabconnect

/-! ## `internal/events/api/event.go` -/

/-- Go `GetKeyForEventClient`: `fmt.Sprintf("%s-%s", channelID, chaincodeID)`. -/
def GetKeyForEventClient (channelID chaincodeID : String) : String :=
  channelID ++ "-" ++ chaincodeID

/-- Go `EventEntry`; the payload is kept as text. -/
structure EventEntry where
  ChaincodeID : String
  BlockNumber : Nat
  TransactionID : String
  TransactionIndex : Int
  EventIndex : Int
  EventName : String
  Payload : String
  Timestamp : Int
  SubID : String
  deriving DecidableEq

/-! ## `internal/rest/restgateway.go` -/

/-- The HTTP part of Go `conf.RESTGatewayConf` that `ValidateConf` looks at. -/
structure HTTPConf where
  LocalAddr : String
  Port : Int
  deriving DecidableEq

/-- The RPC part of Go `conf.RESTGatewayConf` that `ValidateConf` looks at. -/
structure RPCConf where
  ConfigPath : String
  deriving DecidableEq

/-- Go `conf.RESTGatewayConf`, declared outside the sources at hand: the fields
`ValidateConf` reads or writes, and `others` for every remaining field (TLS
settings, the wait time, the event and receipt store settings). -/
structure RESTGatewayConf (ω : Type) where
  HTTP : HTTPConf
  RPC : RPCConf
  others : ω

/-- Go `(*Gateway).ValidateConf`: the configuration after the call and the
error returned.  The two error values are named by their message constants. -/
def ValidateConf {ω : Type} (config : RESTGatewayConf ω) : RESTGatewayConf ω × Option String :=
  if config.HTTP.Port = 0 then
    (config, some "ConfigRESTGatewayRequiredHTTPPort")
  else if config.RPC.ConfigPath = "" then
    (config, some "ConfigRESTGatewayRequiredRPCPath")
  else if config.HTTP.LocalAddr = "" then
    ({ config with HTTP := { config.HTTP with LocalAddr := "0.0.0.0" } }, none)
  else
    (config, none)

/-! ## `internal/fabric/client/client_gateway_clientside.go` -/

/-- A `*gateway.Gateway`, known by its handle. -/
structure Gateway where
  handle : Nat
  deriving DecidableEq

/-- A `*gateway.Network`, known by its handle. -/
structure Network where
  handle : Nat
  deriving DecidableEq

/-- A `*channel.Client`, known by its handle. -/
structure ChannelClient where
  handle : Nat
  deriving DecidableEq

/-- A call made to one of the injected creator functions, with its arguments. -/
inductive CreatorCall where
  | gateway (signer : String)
  | network (client : Option Gateway) (channelID : String)
  | channel (channelID signer org : String)
  deriving DecidableEq

/-- The injected functions of `gwRPCWrapper` with the configuration already
applied, each with its Go result `(pointer, error)`; `getOrgFromConfig` reads
the organisation from the configuration. -/
structure Creators where
  gatewayCreator : String → Option Gateway × Option String
  networkCreator : Option Gateway → String → Option Network × Option String
  getOrgFromConfig : String × Option String
  channelCreator : String → String → String → Option ChannelClient × Option String

/-- Go `gwRPCWrapper`: the three caches (a Go map is a function to `Option`,
`none` for a missing key or a stored `nil`) and the creator calls made so far. -/
structure gwRPCWrapper where
  gwClients : String → Option Gateway
  gwGatewayClients : String → Option (String → Option Network)
  gwChannelClients : String → Option (String → Option ChannelClient)
  calls : List CreatorCall

/-- Go `m[key] = value` on a map. -/
def setKey {α : Type} (m : String → Option α) (key : String) (value : Option α) :
    String → Option α :=
  fun k => if k = key then value else m k

/-- Go `make(map[string]T)`. -/
def emptyMap {α : Type} : String → Option α := fun _ => none

/-- Go `(*gwRPCWrapper).SignerUpdated`. -/
def SignerUpdated (w : gwRPCWrapper) (signer : String) : gwRPCWrapper :=
  { w with
    gwClients := setKey w.gwClients signer none,
    gwGatewayClients := setKey w.gwGatewayClients signer none,
    gwChannelClients := setKey w.gwChannelClients signer none }

/-- The second half of Go `getGatewayClient`: look the channel up in the
signer's map and create the network client when it is missing. -/
def getGatewayClientForChannel (env : Creators) (w : gwRPCWrapper)
    (gatewayClientsForSigner : String → Option Network) (channelID signer : String) :
    gwRPCWrapper × (Option Network × Option String) :=
  match gatewayClientsForSigner channelID with
  | some gatewayClient => (w, (some gatewayClient, none))
  | none =>
    let client := w.gwClients signer
    let w1 := { w with calls := w.calls ++ [CreatorCall.network client channelID] }
    match env.networkCreator client channelID with
    | (_, some err) => (w1, (none, some err))
    | (gatewayClient, none) =>
      ({ w1 with
          gwGatewayClients := setKey w1.gwGatewayClients signer
            (some (setKey gatewayClientsForSigner channelID gatewayClient)) },
        (gatewayClient, none))

/-- Go `(*gwRPCWrapper).getGatewayClient`. -/
def getGatewayClient (env : Creators) (w : gwRPCWrapper) (channelID signer : String) :
    gwRPCWrapper × (Option Network × Option String) :=
  match w.gwGatewayClients signer with
  | none =>
    let w1 := { w with calls := w.calls ++ [CreatorCall.gateway signer] }
    match env.gatewayCreator signer with
    | (_, some err) => (w1, (none, some err))
    | (gatewayClient, none) =>
      let w2 := { w1 with
        gwClients := setKey w1.gwClients signer gatewayClient,
        gwGatewayClients := setKey w1.gwGatewayClients signer (some emptyMap) }
      getGatewayClientForChannel env w2 emptyMap channelID signer
  | some gatewayClientsForSigner =>
    getGatewayClientForChannel env w gatewayClientsForSigner channelID signer

/-- The second half of Go `getChannelClient`. -/
def getChannelClientForChannel (env : Creators) (w : gwRPCWrapper)
    (channelClientsForSigner : String → Option ChannelClient) (channelID signer : String) :
    gwRPCWrapper × (Option ChannelClient × Option String) :=
  match channelClientsForSigner channelID with
  | some channelClient => (w, (some channelClient, none))
  | none =>
    match env.getOrgFromConfig with
    | (_, some err) => (w, (none, some err))
    | (org, none) =>
      let w1 := { w with calls := w.calls ++ [CreatorCall.channel channelID signer org] }
      match env.channelCreator channelID signer org with
      | (_, some err) => (w1, (none, some ("Failed to create new channel client: " ++ err)))
      | (channelClient, none) =>
        ({ w1 with
            gwChannelClients := setKey w1.gwChannelClients signer
              (some (setKey channelClientsForSigner channelID channelClient)) },
          (channelClient, none))

/-- Go `(*gwRPCWrapper).getChannelClient`. -/
def getChannelClient (env : Creators) (w : gwRPCWrapper) (channelID signer : String) :
    gwRPCWrapper × (Option ChannelClient × Option String) :=
  match w.gwChannelClients signer with
  | none =>
    let w1 := { w with gwChannelClients := setKey w.gwChannelClients signer (some emptyMap) }
    getChannelClientForChannel env w1 emptyMap channelID signer
  | some channelClientsForSigner =>
    getChannelClientForChannel env w channelClientsForSigner channelID signer

/-! ## `internal/fabric/client/identity.go` -/

/-- Go `identity.EnrollRequest`, the decoded request body.  `AttrReqs` is the
Go map in the order its iteration yields, `none` for `nil`. -/
structure EnrollRequest where
  Name : String
  Secret : String
  CAName : String
  Profile : String
  AttrReqs : Option (List (String × Bool))

/-- Go `mspApi.EnrollmentRequest`. -/
structure EnrollmentRequest where
  Name : String
  Secret : String
  CAName : String
  Profile : String
  AttrReqs : Option (List (String × Bool))

/-- Go `mspApi.ReenrollmentRequest`. -/
structure ReenrollmentRequest where
  Name : String
  CAName : String
  Profile : String
  AttrReqs : Option (List (String × Bool))

/-- Go `identity.Response`. -/
structure Response where
  Name : String
  Success : Bool
  deriving DecidableEq

/-- Go `restutil.RestError`: the message and the status code, `none` when
`NewRestError` is called without one. -/
structure RestError where
  Message : String
  StatusCode : Option Int
  deriving DecidableEq

/-- What `Enroll` and `Reenroll` call outside the wrapper: the JSON decoder on
the request body and the two operations of the CA client, with their Go error
results. -/
structure Authority where
  decode : String → EnrollRequest × Option String
  caEnroll : EnrollmentRequest → Option String
  caReenroll : ReenrollmentRequest → Option String

/-- Go `idClientWrapper`: the registered listeners (each known by a handle) and
the `SignerUpdated` calls made on them so far, as `(listener, signer)`. -/
structure idClientWrapper where
  listeners : List Nat
  notified : List (Nat × String)

/-- Go `(*idClientWrapper).AddSignerUpdateListener`. -/
def AddSignerUpdateListener (w : idClientWrapper) (listener : Nat) : idClientWrapper :=
  { w with listeners := w.listeners ++ [listener] }

/-- The loop of Go `notifySignerUpdate` over the listeners still to be called. -/
def notifyLoop (notified : List (Nat × String)) (signer : String) :
    List Nat → List (Nat × String)
  | [] => notified
  | listener :: rest => notifyLoop (notified ++ [(listener, signer)]) signer rest

/-- Go `(*idClientWrapper).notifySignerUpdate`. -/
def notifySignerUpdate (w : idClientWrapper) (signer : String) : idClientWrapper :=
  { w with notified := notifyLoop w.notified signer w.listeners }

/-- Go `(*idClientWrapper).Enroll`, on the request body and the `username`
path parameter. -/
def Enroll (ca : Authority) (w : idClientWrapper) (body username : String) :
    idClientWrapper × (Option Response × Option RestError) :=
  match ca.decode body with
  | (_, some err) =>
    (w, (none, some { Message := "failed to decode JSON payload: " ++ err,
                      StatusCode := some 400 }))
  | (enreq, none) =>
    if enreq.Secret = "" then
      (w, (none, some { Message := "missing required parameter \"secret\"",
                        StatusCode := some 400 }))
    else
      let input : EnrollmentRequest :=
        { Name := username, Secret := enreq.Secret, CAName := enreq.CAName,
          Profile := enreq.Profile, AttrReqs := enreq.AttrReqs.map (List.map id) }
      match ca.caEnroll input with
      | some err => (w, (none, some { Message := err, StatusCode := none }))
      | none =>
        let result : Response := { Name := enreq.Name, Success := true }
        (notifySignerUpdate w username, (some result, none))

/-- Go `(*idClientWrapper).Reenroll`. -/
def Reenroll (ca : Authority) (w : idClientWrapper) (body username : String) :
    idClientWrapper × (Option Response × Option RestError) :=
  match ca.decode body with
  | (_, some err) =>
    (w, (none, some { Message := "failed to decode JSON payload: " ++ err,
                      StatusCode := some 400 }))
  | (enreq, none) =>
    let input : ReenrollmentRequest :=
      { Name := username, CAName := enreq.CAName, Profile := enreq.Profile,
        AttrReqs := enreq.AttrReqs.map (List.map id) }
    match ca.caReenroll input with
    | some err => (w, (none, some { Message := err, StatusCode := none }))
    | none =>
      let result : Response := { Name := username, Success := true }
      (notifySignerUpdate w username, (some result, none))

/-! ## `internal/ws/wsconn.go` -/

/-- Go `webSocketCommandMessage`; `MsgType` is the Go field `Type`. -/
structure webSocketCommandMessage where
  MsgType : String
  Topic : String
  Message : String
  deriving DecidableEq

/-- Go `strings.ToLower`: every rune goes through `unicode.ToLower`, which
lowers an ASCII letter by arithmetic and looks any other rune up in Unicode's
case table.  That table is the argument `lowerTable`; it is consulted only for
runes from U+0080 on. -/
def toLower (lowerTable : Char → Char) (s : String) : String :=
  String.mk (s.data.map fun c => if c.toNat < 128 then Char.toLower c else lowerTable c)

/-- What the reader task of a connection does that others can observe. -/
inductive ConnEvent where
  | listenTopic (topic : String)
  | listenReplies
  | offered (topic : String) (err : Option String)
  | passedOn (topic : String)
  | unexpected (msg : webSocketCommandMessage)
  | close
  deriving DecidableEq

/-- Go `handleAckOrError`: the value is offered on the receiver channel of the
topic; `taken` tells whether the other side of that channel takes it before
`processingTimeout` has passed.  If not, `close()` is called. -/
def handleAckOrError (topic : String) (err : Option String) (taken : Bool) :
    List ConnEvent :=
  if taken then [ConnEvent.offered topic err, ConnEvent.passedOn topic]
  else [ConnEvent.offered topic err, ConnEvent.close]

/-- One result of `ReadJSON`: a frame, together with the way the `select` of
`handleAckOrError` turns out should the frame be a reply, or a read error. -/
inductive ReadResult where
  | frame (msg : webSocketCommandMessage) (taken : Bool)
  | failure (err : String)

/-- The body of the loop of Go `listen` for one frame.  `errorFromClient` is
the text of `errors.EventStreamsWebSocketErrorFromClient` applied to the
client's message. -/
def handleFrame (lowerTable : Char → Char) (errorFromClient : String → String)
    (msg : webSocketCommandMessage) (taken : Bool) : List ConnEvent :=
  let t := msg.Topic
  if toLower lowerTable msg.MsgType = "listen" then [ConnEvent.listenTopic t]
  else if toLower lowerTable msg.MsgType = "listenreplies" then [ConnEvent.listenReplies]
  else if toLower lowerTable msg.MsgType = "ack" then handleAckOrError t none taken
  else if toLower lowerTable msg.MsgType = "error" then
    handleAckOrError t (some (errorFromClient msg.Message)) taken
  else [ConnEvent.unexpected msg]

/-- How far a task got on the inputs it was given. -/
inductive TaskEnd where
  | returned
  | waiting
  deriving DecidableEq

/-- Go `listen` on the successive results of `ReadJSON`.  A read error ends
the task, whose deferred `close()` then runs; so does the read that follows a
`close()` made by `handleAckOrError`, because the socket is closed by then.
When the results run out the task waits in `ReadJSON`. -/
def listen (lowerTable : Char → Char) (errorFromClient : String → String) :
    List ReadResult → List ConnEvent × TaskEnd
  | [] => ([], TaskEnd.waiting)
  | ReadResult.failure _ :: _ => ([ConnEvent.close], TaskEnd.returned)
  | ReadResult.frame msg taken :: rest =>
    let events := handleFrame lowerTable errorFromClient msg taken
    if ConnEvent.close ∈ events then (events ++ [ConnEvent.close], TaskEnd.returned)
    else
      ((events ++ (listen lowerTable errorFromClient rest).1),
        (listen lowerTable errorFromClient rest).2)

/-- The values offered on receiver channels among the events of the reader
task, each with the topic of its channel. -/
def offers : List ConnEvent → List (String × Option String)
  | [] => []
  | ConnEvent.offered topic err :: rest => (topic, err) :: offers rest
  | _ :: rest => offers rest

/-- A channel the sender task can receive from. -/
inductive Chan where
  | senderChannel (topic : String)
  | broadcast
  | closing
  | newTopic
  deriving DecidableEq

/-- The function `buildCases` inside Go `sender`, on the topics of the
connection in the order the map iteration yields them: one receive case per
topic, then the three fixed ones. -/
def buildCases (topics : List String) : List Chan :=
  topics.map Chan.senderChannel ++ [Chan.broadcast, Chan.closing, Chan.newTopic]

/-- One result of `reflect.Select`, and the topics of the connection at that
moment (read only if the case list is rebuilt). -/
structure Selected where
  chosen : Nat
  value : String
  ok : Bool
  topics : List String

/-- What the sender task does that others can observe. -/
inductive SenderEvent where
  | writeJSON (value : String)
  | close
  deriving DecidableEq

/-- The loop of Go `sender` on the successive results of `reflect.Select`. -/
def senderLoop : List Chan → List Selected → List SenderEvent × TaskEnd
  | _, [] => ([], TaskEnd.waiting)
  | cases, r :: rest =>
    if !r.ok then ([SenderEvent.close], TaskEnd.returned)
    else if r.chosen = cases.length - 1 then senderLoop (buildCases r.topics) rest
    else
      (SenderEvent.writeJSON r.value :: (senderLoop cases rest).1, (senderLoop cases rest).2)

/-- Go `sender`, started with the topics the connection has at that time. -/
def sender (topics : List String) (selected : List Selected) : List SenderEvent × TaskEnd :=
  senderLoop (buildCases topics) selected

/-! ## `internal/fabric/utils/blockdecoder.go` -/

/-- Modelled from the spec: a chaincode event as it appears in a decoded
block, with the fields the decoder test reads. -/
structure ChaincodeEvent where
  ChaincodeID : String
  TxID : String
  Timestamp : Int
  EventName : String
  Payload : String
  deriving DecidableEq

/-- Modelled from the spec: a decoded block, that is the number in its header
and, for each transaction in block order, the chaincode events of that
transaction. -/
structure Block where
  Number : Nat
  Data : List (List ChaincodeEvent)

/-- Modelled from the spec: `GetEvents` of `internal/fabric/utils/blockdecoder.go`
is not among the sources (only its test is).  Per the spec a decoded block is
normalised into one event record per chaincode event, carrying the chaincode
ID, block number, transaction ID, transaction index, event index, event name,
payload and timestamp; `subId` is assigned later, when the record is routed.
This is the loop over the events of one transaction. -/
def eventsOfTx (blockNumber : Nat) (txIndex : Nat) : Nat → List ChaincodeEvent → List EventEntry
  | _, [] => []
  | eventIndex, ev :: rest =>
    { ChaincodeID := ev.ChaincodeID, BlockNumber := blockNumber, TransactionID := ev.TxID,
      TransactionIndex := txIndex, EventIndex := eventIndex, EventName := ev.EventName,
      Payload := ev.Payload, Timestamp := ev.Timestamp, SubID := "" } ::
      eventsOfTx blockNumber txIndex (eventIndex + 1) rest

/-- Modelled from the spec: the loop of `GetEvents` over the transactions of
the block, from the transaction at position `txIndex` on. -/
def eventsOfTxs (blockNumber : Nat) : Nat → List (List ChaincodeEvent) → List EventEntry
  | _, [] => []
  | txIndex, tx :: rest =>
    eventsOfTx blockNumber txIndex 0 tx ++ eventsOfTxs blockNumber (txIndex + 1) rest

/-- Modelled from the spec: `GetEvents`, the event records of a block. -/
def GetEvents (block : Block) : List EventEntry :=
  eventsOfTxs block.Number 0 block.Data

/-! ## Sample inputs -/

/-- Creators that always succeed and hand out fixed clients. -/
def sampleCreators : Creators :=
  { gatewayCreator := fun _ => (some { handle := 1 }, none),
    networkCreator := fun _ _ => (some { handle := 2 }, none),
    getOrgFromConfig := ("org1", none),
    channelCreator := fun _ _ _ => (some { handle := 3 }, none) }

/-- A wrapper that has cached clients for the signers `user1` and `user2` on
the channel `ch`. -/
def sampleWrapper : gwRPCWrapper :=
  { gwClients := fun k =>
      if k = "user1" ∨ k = "user2" then some { handle := 10 } else none,
    gwGatewayClients := fun k =>
      if k = "user1" ∨ k = "user2" then
        some (fun c => if c = "ch" then some { handle := 20 } else none)
      else none,
    gwChannelClients := fun k =>
      if k = "user1" ∨ k = "user2" then
        some (fun c => if c = "ch" then some { handle := 30 } else none)
      else none,
    calls := [] }

/-- A decoder and a CA that accept a body exactly when it is not empty and
take the body as the secret. -/
def sampleAuthority : Authority :=
  { decode := fun body =>
      if body = "" then
        ({ Name := "", Secret := "", CAName := "", Profile := "", AttrReqs := none },
          some "EOF")
      else
        ({ Name := "", Secret := body, CAName := "", Profile := "", AttrReqs := none }, none),
    caEnroll := fun _ => none,
    caReenroll := fun _ => none }

/-- Two entries of Unicode's case table: the Kelvin sign U+212A lowers to `k`
and the dotted capital I U+0130 to `i`; every other rune is left alone here. -/
def sampleLowerTable (c : Char) : Char :=
  if c.toNat = 0x212A then 'k' else if c.toNat = 0x130 then 'i' else c

/-- The text of the error built for an `error` frame. -/
def sampleErrorFromClient (message : String) : String :=
  "Error received from WebSocket client: " ++ message

/-- The block of `TestGetEvents`: number 16, one transaction, one event. -/
def sampleBlock : Block :=
  { Number := 16,
    Data := [[{ ChaincodeID := "asset_transfer", TxID := "5d2f", Timestamp := 1641861241312746000,
                EventName := "AssetCreated", Payload := "" }]] }

end Fabconnect

namespace Chaincode

/-! ## Facts about machine integers -/

theorem wrap_of_isInt {x : Int} (h : IsInt x) : wrap x = x := by
  unfold IsInt minInt maxInt at h
  unfold wrap
  omega

theorem isInt_wrap (x : Int) : IsInt (wrap x) := by
  unfold IsInt minInt maxInt wrap
  omega

/-! ## Facts about `strconv` -/

theorem digitChar_toNat {d : Nat} (h : d < 10) : (digitChar d).toNat = 48 + d := by
  interval_cases d <;> rfl

theorem parseUintLoop_digit (d n : Nat) (cs : List Char) (hd : d < 10)
    (hn : n * 10 + d ≤ maxUint64) :
    parseUintLoop (digitChar d :: cs) n = parseUintLoop cs (n * 10 + d) := by
  have hc := digitChar_toNat hd
  unfold maxUint64 at hn
  have h1 : ¬ n ≥ cutoff64 := by unfold cutoff64 maxUint64; omega
  have h2 : (n * 10 + d) % 2 ^ 64 = n * 10 + d := by omega
  rw [parseUintLoop]
  simp only [hc, h1, if_false]
  have h3 : 48 ≤ 48 + d ∧ 48 + d ≤ 57 := by omega
  have h4 : 48 + d - 48 = d := by omega
  rw [if_pos h3, h4, h2]
  have h5 : ¬ (n * 10 + d < n * 10 ∨ n * 10 + d > maxUint64) := by
    unfold maxUint64; omega
  rw [if_neg h5]

theorem parseUintLoop_formatBits (fuel : Nat) :
    ∀ (u : Nat) (acc : List Char), u < fuel →
      ∃ k : Nat, ∀ a : Nat, a * 10 ^ k + u ≤ maxUint64 →
        parseUintLoop (formatBits fuel u acc) a = parseUintLoop acc (a * 10 ^ k + u) := by
  induction fuel with
  | zero => intro u acc h; omega
  | succ fuel ih =>
    intro u acc hu
    by_cases h10 : u < 10
    · refine ⟨1, fun a ha => ?_⟩
      rw [formatBits, if_pos h10, pow_one]
      rw [pow_one] at ha
      exact parseUintLoop_digit u a acc h10 ha
    · have hlt : u / 10 < fuel := by omega
      obtain ⟨k, hk⟩ := ih (u / 10) (digitChar (u % 10) :: acc) hlt
      refine ⟨k + 1, fun a ha => ?_⟩
      rw [formatBits, if_neg h10]
      rw [pow_succ, ← Nat.mul_assoc] at ha
      have hmod : u % 10 < 10 := Nat.mod_lt _ (by decide)
      generalize hX : a * 10 ^ k = X at ha hk
      have h1 : a * 10 ^ k + u / 10 ≤ maxUint64 := by
        rw [hX]; unfold maxUint64 at *; omega
      rw [hk a h1, hX]
      have h2 : (X + u / 10) * 10 + u % 10 ≤ maxUint64 := by
        unfold maxUint64 at *; omega
      rw [parseUintLoop_digit (u % 10) (X + u / 10) acc hmod h2]
      congr 1
      rw [pow_succ, ← Nat.mul_assoc, hX]
      omega

theorem formatBits_head (fuel : Nat) :
    ∀ (u : Nat) (acc : List Char),
      ∃ d tl, d < 10 ∧ formatBits (fuel + 1) u acc = digitChar d :: tl := by
  induction fuel with
  | zero =>
    intro u acc
    by_cases h10 : u < 10
    · exact ⟨u, acc, h10, by rw [formatBits, if_pos h10]⟩
    · exact ⟨u % 10, acc, Nat.mod_lt _ (by decide), by
        rw [formatBits, if_neg h10, formatBits]⟩
  | succ fuel ih =>
    intro u acc
    by_cases h10 : u < 10
    · exact ⟨u, acc, h10, by rw [formatBits, if_pos h10]⟩
    · obtain ⟨d, tl, hd, h⟩ := ih (u / 10) (digitChar (u % 10) :: acc)
      exact ⟨d, tl, hd, by rw [formatBits, if_neg h10, h]⟩

theorem ParseUint_formatBits (u : Nat) (hu : u ≤ maxUint64) :
    ParseUint (formatBits (u + 1) u []) = (u, none) := by
  obtain ⟨d, tl, _, h⟩ := formatBits_head u u []
  obtain ⟨k, hk⟩ := parseUintLoop_formatBits (u + 1) u [] (Nat.lt_succ_self u)
  have h0 := hk 0 (by simpa using hu)
  rw [h] at h0 ⊢
  simp only [ParseUint]
  rw [h0]
  simp [parseUintLoop]

theorem digitChar_ne_sign {d : Nat} (h : d < 10) :
    digitChar d ≠ '+' ∧ digitChar d ≠ '-' := by
  interval_cases d <;> decide

/-- Reading back what `Itoa` wrote returns the value, for every Go `int`. -/
theorem Atoi_Itoa (i : Int) (h : IsInt i) : Atoi (Itoa i) = (i, none) := by
  unfold IsInt minInt maxInt at h
  have hu : i.natAbs ≤ maxUint64 := by unfold maxUint64; omega
  have hp := ParseUint_formatBits i.natAbs hu
  by_cases hneg : i < 0
  · have habs : (i.natAbs : Int) = -i := Int.ofNat_natAbs_of_nonpos (le_of_lt hneg)
    unfold Atoi Itoa
    rw [if_pos hneg]
    have h1 : ¬ i.natAbs > 2 ^ 63 := by omega
    simp only [ParseInt, or_true, if_true, hp, decide_True, Bool.not_true, Bool.false_and,
      Bool.true_and, decide_eq_true_eq, h1, if_false, Bool.false_eq_true]
    unfold wrap
    rw [habs]
    congr 1
    omega
  · have habs : (i.natAbs : Int) = i := Int.natAbs_of_nonneg (not_lt.mp hneg)
    obtain ⟨d, tl, hd, hf⟩ := formatBits_head i.natAbs i.natAbs []
    obtain ⟨hplus, hminus⟩ := digitChar_ne_sign hd
    unfold Atoi Itoa
    rw [if_neg hneg]
    rw [hf] at hp ⊢
    have h1 : ¬ i.natAbs ≥ 2 ^ 63 := by omega
    simp only [ParseInt, hplus, hminus, or_self, if_false, hp, decide_False, Bool.not_false,
      Bool.true_and, Bool.false_and, decide_eq_true_eq, h1, Bool.false_eq_true]
    unfold wrap
    rw [habs]
    congr 1
    omega

theorem ParseInt_isInt (s : List Char) : IsInt (ParseInt s).1 := by
  cases s with
  | nil => simp only [ParseInt]; decide
  | cons c cs =>
    simp only [ParseInt]
    rcases ParseUint (if c = '+' ∨ c = '-' then cs else c :: cs) with ⟨un, _ | e⟩
    · dsimp only
      split_ifs
      · decide
      · decide
      · exact isInt_wrap _
      · exact isInt_wrap _
    · cases e
      · dsimp only; decide
      · dsimp only
        split_ifs
        · decide
        · decide
        · exact isInt_wrap _
        · exact isInt_wrap _

/-- Whatever the stored text, `Atoi` yields a Go `int`. -/
theorem Atoi_isInt (s : String) : IsInt (Atoi s).1 := ParseInt_isInt s.data

/-! ## Facts about `add` and `sub` -/

theorem add_of_isInt {b q : Int} (h : IsInt (b + q)) :
    add b q = (b + q, none) := by
  have hw : wrap (q + b) = b + q := by rw [Int.add_comm]; exact wrap_of_isInt h
  unfold add
  simp only [hw]
  unfold IsInt minInt maxInt at h
  by_cases hb0 : b ≥ 0 <;> by_cases hq0 : q ≥ 0 <;> simp [hb0, hq0]

theorem add_of_not_isInt {b q : Int} (hb : IsInt b) (hq : IsInt q) (h : ¬ IsInt (b + q)) :
    add b q = (0, some ("Math: addition overflow occurred " ++ Itoa b ++ " + " ++ Itoa q)) := by
  unfold IsInt minInt maxInt at hb hq h
  unfold add wrap
  simp only []
  by_cases hb0 : b ≥ 0 <;> by_cases hq0 : q ≥ 0 <;> simp [hb0, hq0] <;> omega

theorem sub_of_le {b q : Int} (hb : IsInt b) (hq : 0 < q) (h : q ≤ b) :
    sub b q = (b - q, none) := by
  have hw : wrap (b - q) = b - q := by
    apply wrap_of_isInt
    unfold IsInt minInt maxInt at hb ⊢
    omega
  unfold sub
  rw [if_neg (by omega), if_neg (by omega)]
  simp only [hw]

theorem sub_error_iff (b q : Int) : (sub b q).2 ≠ none ↔ (q ≤ 0 ∨ b < q) := by
  unfold sub
  by_cases h1 : q ≤ 0
  · simp [h1]
  · by_cases h2 : b < q
    · simp [h1, h2]
    · simp [h1, h2]

/-! ## Facts about `transferHelper` -/

/-- A failing `transferHelper` hands the context back as it received it. -/
theorem transferHelper_error_ctx (ctx : Ctx) (fromID toID : String) (value : Int)
    (h : (transferHelper ctx fromID toID value).2 ≠ none) :
    (transferHelper ctx fromID toID value).1 = ctx := by
  revert h
  unfold transferHelper GetState PutState
  split_ifs
  · simp
  · simp
  · cases hf : ctx.state fromID with
    | none => simp
    | some fb =>
      simp only []
      split_ifs
      · simp
      · rcases hs : sub (Atoi fb).1 value with ⟨x, _ | e⟩
        · simp only []
          rcases ha : add (match ctx.state toID with
              | none => 0
              | some bytes => (Atoi bytes).1) value with ⟨y, _ | e2⟩
          · simp
          · simp
        · simp

theorem transferHelper_succeeds (ctx : Ctx) (fromID toID : String) (value : Int)
    (fb : String) (hne : fromID ≠ toID) (hpos : 0 < value)
    (hf : ctx.state fromID = some fb) (hle : value ≤ (Atoi fb).1)
    (hsum : IsInt (storedInt ctx.state toID + value)) :
    transferHelper ctx fromID toID value =
      ({ ctx with writes := ctx.writes ++
          [(fromID, Itoa ((Atoi fb).1 - value)),
           (toID, Itoa (storedInt ctx.state toID + value))] }, none) := by
  have hs := sub_of_le (Atoi_isInt fb) hpos hle
  have ha := add_of_isInt hsum
  unfold storedInt at ha hsum ⊢
  unfold transferHelper GetState PutState
  rw [if_neg hne, if_neg (by omega)]
  simp only [hf]
  rw [if_neg (by omega)]
  cases ht : ctx.state toID with
  | none =>
    rw [ht] at ha
    simp only [] at ha ⊢
    simp [hs, ha]
  | some tb =>
    rw [ht] at ha
    simp only [] at ha ⊢
    simp [hs, ha]

theorem transferHelper_fails (ctx : Ctx) (fromID toID : String) (value : Int)
    (h : ¬ (fromID ≠ toID ∧ 0 < value ∧ (∃ fb, ctx.state fromID = some fb ∧
      value ≤ (Atoi fb).1) ∧ IsInt (storedInt ctx.state toID + value))) :
    (transferHelper ctx fromID toID value).2 ≠ none := by
  by_cases hne : fromID = toID
  · unfold transferHelper; rw [if_pos hne]; simp
  by_cases hneg : value < 0
  · unfold transferHelper; rw [if_neg hne, if_pos hneg]; simp
  cases hf : ctx.state fromID with
  | none =>
    unfold transferHelper GetState; rw [if_neg hne, if_neg hneg]; simp only [hf]
    simp
  | some fb =>
    by_cases hlt : (Atoi fb).1 < value
    · unfold transferHelper GetState; rw [if_neg hne, if_neg hneg]; simp only [hf]
      rw [if_pos hlt]; simp
    · by_cases h0 : value = 0
      · have hs : (sub (Atoi fb).1 value).2 ≠ none :=
          (sub_error_iff _ _).mpr (Or.inl (by omega))
        rcases hsub : sub (Atoi fb).1 value with ⟨x, _ | e⟩
        · rw [hsub] at hs; exact absurd rfl hs
        · unfold transferHelper GetState; rw [if_neg hne, if_neg hneg]; simp only [hf]
          rw [if_neg hlt]
          simp only [hsub]
          simp
      · have hpos : 0 < value := by omega
        have hle : value ≤ (Atoi fb).1 := by omega
        have hs := sub_of_le (Atoi_isInt fb) hpos hle
        have hfb := Atoi_isInt fb
        have hv : IsInt value := by
          unfold IsInt minInt maxInt at hfb ⊢; omega
        have hsum : ¬ IsInt (storedInt ctx.state toID + value) := by
          intro hsum
          exact h ⟨hne, hpos, ⟨fb, hf, hle⟩, hsum⟩
        have htb : IsInt (storedInt ctx.state toID) := by
          unfold storedInt
          cases ctx.state toID with
          | none => decide
          | some tb => exact Atoi_isInt tb
        have ha := add_of_not_isInt htb hv hsum
        unfold storedInt at ha
        unfold transferHelper GetState; rw [if_neg hne, if_neg hneg]; simp only [hf]
        rw [if_neg hlt]
        cases ht : ctx.state toID with
        | none =>
          rw [ht] at ha
          simp only [] at ha ⊢
          simp only [hs, ha]
          simp
        | some tb =>
          rw [ht] at ha
          simp only [] at ha ⊢
          simp only [hs, ha]
          simp


/-! ## Facts about committing a write set -/

theorem commit_two (st : WorldState) (k1 v1 k2 v2 : String) :
    commit st [(k1, v1), (k2, v2)] = put (put st k1 v1) k2 v2 := rfl

theorem settle_error (r : Ctx × Option String) (h : r.2 ≠ none) : settle r = r.1.state := by
  unfold settle
  cases hr : r.2 with
  | none => exact absurd hr h
  | some e => rfl

/-! ## Facts about `Mint` and `Burn` -/

theorem BalanceOf_fst (ctx : Ctx) (account : String) :
    (BalanceOf ctx account).1 = storedInt ctx.state account := by
  unfold BalanceOf GetState storedInt
  cases ctx.state account <;> rfl

theorem TotalSupply_fst (ctx : Ctx) :
    (TotalSupply ctx).1 = storedInt ctx.state totalSupplyKey := by
  unfold TotalSupply GetState storedInt
  cases ctx.state totalSupplyKey <;> rfl

theorem Mint_succeeds (ctx : Ctx) (minter : String) (amount : Int)
    (hmsp : ctx.identity.mspID = ("Org1MSP", none)) (hid : ctx.identity.id = (minter, none))
    (hpos : 0 < amount) (hbal : IsInt (storedInt ctx.state minter + amount))
    (hsup : IsInt (storedInt ctx.state totalSupplyKey + amount)) :
    Mint ctx amount =
      ({ ctx with
          writes := ctx.writes ++
            [(minter, Itoa (storedInt ctx.state minter + amount)),
             (totalSupplyKey, Itoa (storedInt ctx.state totalSupplyKey + amount))],
          event := some ("Transfer", { From := "0x0", To := minter, Value := amount }) },
        none) := by
  have ha1 := add_of_isInt hbal
  have ha2 := add_of_isInt hsup
  unfold storedInt at ha1 ha2 ⊢
  unfold Mint GetState PutState SetEvent
  simp only [hmsp, hid, ne_eq, not_true_eq_false, if_false]
  rw [if_neg (by omega)]
  cases h1 : ctx.state minter <;> cases h2 : ctx.state totalSupplyKey <;>
    rw [h1] at ha1 <;> rw [h2] at ha2 <;> simp only [] at ha1 ha2 ⊢ <;>
    simp [ha1, ha2]

theorem Mint_nonpositive (ctx : Ctx) (amount : Int) (h : amount ≤ 0) :
    (Mint ctx amount).2 ≠ none ∧ (Mint ctx amount).1 = ctx := by
  unfold Mint
  rcases hm : ctx.identity.mspID with ⟨m, _ | e⟩
  · by_cases hne : m ≠ "Org1MSP"
    · simp only [if_pos hne]; simp
    · simp only [if_neg hne]
      rcases hi : ctx.identity.id with ⟨i, _ | e⟩
      · simp only [if_pos h]; simp
      · simp
  · simp

theorem Burn_succeeds (ctx : Ctx) (minter : String) (amount : Int) (bb tb : String)
    (hmsp : ctx.identity.mspID = ("Org1MSP", none)) (hid : ctx.identity.id = (minter, none))
    (hpos : 0 < amount) (hb : ctx.state minter = some bb) (hble : amount ≤ (Atoi bb).1)
    (ht : ctx.state totalSupplyKey = some tb) (htle : amount ≤ (Atoi tb).1) :
    Burn ctx amount =
      ({ ctx with
          writes := ctx.writes ++
            [(minter, Itoa ((Atoi bb).1 - amount)),
             (totalSupplyKey, Itoa ((Atoi tb).1 - amount))],
          event := some ("Transfer", { From := minter, To := "0x0", Value := amount }) },
        none) := by
  have hs1 := sub_of_le (Atoi_isInt bb) hpos hble
  have hs2 := sub_of_le (Atoi_isInt tb) hpos htle
  unfold Burn GetState PutState SetEvent
  simp only [hmsp, hid, ne_eq, not_true_eq_false, if_false]
  rw [if_neg (by omega)]
  simp [hb, ht, hs1, hs2]

theorem Burn_fails (ctx : Ctx) (minter : String) (amount : Int)
    (hmsp : ctx.identity.mspID = ("Org1MSP", none)) (hid : ctx.identity.id = (minter, none))
    (h : ¬ (0 < amount ∧ (∃ bb, ctx.state minter = some bb ∧ amount ≤ (Atoi bb).1) ∧
      (∃ tb, ctx.state totalSupplyKey = some tb ∧ amount ≤ (Atoi tb).1))) :
    (Burn ctx amount).2 ≠ none := by
  unfold Burn GetState PutState SetEvent
  simp only [hmsp, hid, ne_eq, not_true_eq_false, if_false]
  by_cases hpos : amount ≤ 0
  · rw [if_pos hpos]; simp
  rw [if_neg hpos]
  cases hb : ctx.state minter with
  | none => simp
  | some bb =>
    simp only []
    by_cases hble : amount ≤ (Atoi bb).1
    · have hs1 := sub_of_le (Atoi_isInt bb) (by omega) hble
      simp only [hs1]
      cases ht : ctx.state totalSupplyKey with
      | none => simp
      | some tb =>
        simp only []
        have htle : ¬ amount ≤ (Atoi tb).1 := by
          intro htle
          exact h ⟨by omega, ⟨bb, hb, hble⟩, ⟨tb, ht, htle⟩⟩
        have hs2 : (sub (Atoi tb).1 amount).2 ≠ none :=
          (sub_error_iff _ _).mpr (Or.inr (by omega))
        rcases hsub : sub (Atoi tb).1 amount with ⟨x, _ | e⟩
        · rw [hsub] at hs2; exact absurd rfl hs2
        · simp
    · have hs1 : (sub (Atoi bb).1 amount).2 ≠ none :=
        (sub_error_iff _ _).mpr (Or.inr (by omega))
      rcases hsub : sub (Atoi bb).1 amount with ⟨x, _ | e⟩
      · rw [hsub] at hs1; exact absurd rfl hs1
      · simp

/-! ## Facts about composite keys -/

theorem append_cons_unique {α : Type} (a : α) :
    ∀ (l1 l2 r1 r2 : List α), a ∉ l1 → a ∉ l2 → l1 ++ a :: r1 = l2 ++ a :: r2 →
      l1 = l2 ∧ r1 = r2 := by
  intro l1
  induction l1 with
  | nil =>
    intro l2 r1 r2 _ h2 h
    cases l2 with
    | nil => exact ⟨rfl, (List.cons.inj h).2⟩
    | cons b l2 =>
      have hab : a = b := (List.cons.inj h).1
      exact absurd (hab ▸ List.mem_cons_self a l2) h2
  | cons c l1 ih =>
    intro l2 r1 r2 h1 h2 h
    cases l2 with
    | nil =>
      have hca : c = a := (List.cons.inj h).1
      exact absurd (hca ▸ List.mem_cons_self c l1) h1
    | cons b l2 =>
      obtain ⟨hcb, htl⟩ := List.cons.inj h
      obtain ⟨e1, e2⟩ := ih l2 r1 r2 (fun hm => h1 (List.mem_cons_of_mem c hm))
        (fun hm => h2 (List.mem_cons_of_mem b hm)) htl
      exact ⟨by rw [hcb, e1], e2⟩

theorem not_mem_of_validate {str : String} (h : validateCompositeKeyAttribute str = none) :
    Char.ofNat 0 ∉ str.data := by
  unfold validateCompositeKeyAttribute at h
  intro hmem
  have hany : (str.data.any fun c => c.toNat = 0 || c.toNat = 0x10FFFF) = true := by
    rw [List.any_eq_true]
    exact ⟨Char.ofNat 0, hmem, by decide⟩
  rw [if_pos hany] at h
  exact Option.noConfusion h

theorem CreateCompositeKey_ok (o s : String)
    (h : (CreateCompositeKey allowancePrefix [o, s]).2 = none) :
    validateCompositeKeyAttribute o = none ∧ validateCompositeKeyAttribute s = none ∧
      (CreateCompositeKey allowancePrefix [o, s]).1 =
        String.mk [Char.ofNat 0] ++ allowancePrefix ++ String.mk [Char.ofNat 0] ++ o ++
          String.mk [Char.ofNat 0] ++ s ++ String.mk [Char.ofNat 0] := by
  have hp : validateCompositeKeyAttribute allowancePrefix = none := by decide
  revert h
  unfold CreateCompositeKey
  simp only [hp, compositeKeyLoop]
  cases ho : validateCompositeKeyAttribute o with
  | some e => simp
  | none =>
    cases hs : validateCompositeKeyAttribute s with
    | some e => simp
    | none => simp

theorem CreateCompositeKey_inj (o s o2 s2 : String)
    (h1 : (CreateCompositeKey allowancePrefix [o, s]).2 = none)
    (h2 : (CreateCompositeKey allowancePrefix [o2, s2]).2 = none)
    (h : (CreateCompositeKey allowancePrefix [o, s]).1 =
      (CreateCompositeKey allowancePrefix [o2, s2]).1) :
    o = o2 ∧ s = s2 := by
  obtain ⟨ho, _, hk⟩ := CreateCompositeKey_ok o s h1
  obtain ⟨ho2, _, hk2⟩ := CreateCompositeKey_ok o2 s2 h2
  rw [hk, hk2] at h
  have hd := congrArg String.data h
  simp only [String.data_append, List.append_assoc] at hd
  have hd1 := List.append_cancel_left (List.append_cancel_left (List.append_cancel_left hd))
  have hd2 : o.data ++ Char.ofNat 0 :: (s.data ++ [Char.ofNat 0]) =
      o2.data ++ Char.ofNat 0 :: (s2.data ++ [Char.ofNat 0]) := hd1
  obtain ⟨e1, e2⟩ := append_cons_unique (Char.ofNat 0) _ _ _ _ (not_mem_of_validate ho)
    (not_mem_of_validate ho2) hd2
  exact ⟨String.ext e1, String.ext (List.append_cancel_right e2)⟩

/-! ## Facts about `Approve` -/

theorem Approve_succeeds (ctx : Ctx) (owner spender key : String) (value : Int)
    (hid : ctx.identity.id = (owner, none))
    (hk : CreateCompositeKey allowancePrefix [owner, spender] = (key, none)) :
    Approve ctx spender value =
      ({ ctx with
          writes := ctx.writes ++ [(key, Itoa value)],
          event := some ("Approval", { From := owner, To := spender, Value := value }) },
        none) := by
  unfold Approve PutState SetEvent
  simp only [hid, hk]

theorem Approve_key_ok (ctx : Ctx) (owner spender : String) (value : Int)
    (hid : ctx.identity.id = (owner, none)) (hok : (Approve ctx spender value).2 = none) :
    (CreateCompositeKey allowancePrefix [owner, spender]).2 = none := by
  rcases hk : CreateCompositeKey allowancePrefix [owner, spender] with ⟨key, _ | e⟩
  · rfl
  · revert hok
    unfold Approve
    simp [hid, hk]

/-! ## Facts about `TransferFrom` -/

theorem commit_three (st : WorldState) (k1 v1 k2 v2 k3 v3 : String) :
    commit st [(k1, v1), (k2, v2), (k3, v3)] = put (put (put st k1 v1) k2 v2) k3 v3 := rfl

theorem Allowance_of_key (ctx : Ctx) (owner spender key : String)
    (hk : CreateCompositeKey allowancePrefix [owner, spender] = (key, none)) :
    Allowance ctx owner spender = (storedInt ctx.state key, none) := by
  unfold Allowance GetState storedInt
  simp only [hk]
  cases ctx.state key <;> rfl

theorem Atoi_getD (st : WorldState) (key : String) :
    (Atoi ((st key).getD "")).1 = storedInt st key := by
  unfold storedInt
  cases st key with
  | none => decide
  | some bytes => rfl

theorem isInt_storedInt (st : WorldState) (key : String) : IsInt (storedInt st key) := by
  unfold storedInt
  cases st key with
  | none => decide
  | some bytes => exact Atoi_isInt bytes

/-- A successful `TransferFrom` had a usable allowance key and a sufficient
allowance, and its write set ends with the reduced allowance. -/
theorem TransferFrom_ok (ctx : Ctx) (spender fromID toID : String) (value : Int)
    (hid : ctx.identity.id = (spender, none))
    (h : (TransferFrom ctx fromID toID value).2 = none) :
    ∃ key v1 v2, CreateCompositeKey allowancePrefix [fromID, spender] = (key, none) ∧
      0 < value ∧ value ≤ storedInt ctx.state key ∧
      (TransferFrom ctx fromID toID value).1.writes =
        ctx.writes ++ [(fromID, v1), (toID, v2),
          (key, Itoa (storedInt ctx.state key - value))] ∧
      (TransferFrom ctx fromID toID value).1.state = ctx.state := by
  revert h
  unfold TransferFrom
  simp only [hid]
  rcases hk : CreateCompositeKey allowancePrefix [fromID, spender] with ⟨key, _ | e⟩
  · simp only [GetState, Atoi_getD]
    by_cases hlt : storedInt ctx.state key < value
    · simp [hlt]
    · rw [if_neg hlt]
      by_cases hcond : fromID ≠ toID ∧ 0 < value ∧ (∃ fb, ctx.state fromID = some fb ∧
          value ≤ (Atoi fb).1) ∧ IsInt (storedInt ctx.state toID + value)
      · obtain ⟨hne, hpos, ⟨fb, hf, hle⟩, hsum⟩ := hcond
        rw [transferHelper_succeeds ctx fromID toID value fb hne hpos hf hle hsum]
        have hs := sub_of_le (isInt_storedInt ctx.state key) hpos (not_lt.mp hlt)
        simp only [hs, PutState, SetEvent]
        intro _
        exact ⟨key, Itoa ((Atoi fb).1 - value), Itoa (storedInt ctx.state toID + value), rfl,
          hpos, not_lt.mp hlt, by simp⟩
      · have hfail := transferHelper_fails ctx fromID toID value hcond
        rcases ht : transferHelper ctx fromID toID value with ⟨c1, _ | e⟩
        · rw [ht] at hfail; exact absurd rfl hfail
        · simp
  · simp

theorem storedInt_put_same (st : WorldState) (key : String) (n : Int) (h : IsInt n) :
    storedInt (put st key (Itoa n)) key = n := by
  unfold storedInt put
  simp only [if_true, Atoi_Itoa _ h]

/-- One successful `TransferFrom`, taken alone, had a positive value within the
allowance and leaves the allowance reduced by that value. -/
theorem TransferFrom_step (identity : ClientIdentity) (spender fromID toID : String)
    (now : Int) (st : WorldState) (value : Int) (hid : identity.id = (spender, none))
    (h : (TransferFrom (Ctx.start identity st now) fromID toID value).2 = none) :
    0 < value ∧ value ≤ (Allowance (Ctx.start identity st now) fromID spender).1 ∧
      Allowance (Ctx.start identity
          (settle (TransferFrom (Ctx.start identity st now) fromID toID value)) now)
        fromID spender =
        ((Allowance (Ctx.start identity st now) fromID spender).1 - value, none) := by
  obtain ⟨key, v1, v2, hk, hpos, hle, hwr, hstate⟩ :=
    TransferFrom_ok (Ctx.start identity st now) spender fromID toID value hid h
  have hst : settle (TransferFrom (Ctx.start identity st now) fromID toID value) =
      put (put (put st fromID v1) toID v2) key (Itoa (storedInt st key - value)) := by
    unfold settle
    rw [h]
    simp only [hwr, hstate]
    exact commit_three st _ _ _ _ _ _
  have hcur := isInt_storedInt st key
  have hnew : IsInt (storedInt st key - value) := by
    unfold IsInt minInt maxInt at hcur ⊢
    have hle2 : value ≤ storedInt st key := hle
    omega
  rw [hst, Allowance_of_key _ fromID spender key hk, Allowance_of_key _ fromID spender key hk]
  refine ⟨hpos, hle, ?_⟩
  have hread : storedInt (put (put (put st fromID v1) toID v2) key
      (Itoa (storedInt st key - value))) key = storedInt st key - value :=
    storedInt_put_same _ key _ hnew
  exact congrArg (fun x => (x, (none : Option String))) hread

/-! ## The claims -/

/-- C1 (fails on the code): a zero-amount transfer between distinct accounts is
rejected although the sender has a recorded balance: `sub` refuses the
subtrahend `0`. -/
theorem transferHelper_zero_rejected :
    (transferHelper (Ctx.start alice sampleState 0) "alice" "bob" 0).2 =
        some "Error: the subtraction number is 0, it should be greater than 0" ∧
      (Transfer (Ctx.start alice sampleState 0) "alice" "bob" 0).2 =
        some ("failed to transfer: " ++
          "Error: the subtraction number is 0, it should be greater than 0") := by
  decide

/-- C2: `transferHelper` returns an error, performs no `PutState` and leaves the
world state as it was whenever the value is negative, or the two accounts are
the same, or the sender has no recorded balance, or that balance is less than
the value. -/
theorem transferHelper_rejects (ctx : Ctx) (fromID toID : String) (value : Int)
    (h : value < 0 ∨ fromID = toID ∨ ctx.state fromID = none ∨
      (BalanceOf ctx fromID).1 < value) :
    (transferHelper ctx fromID toID value).2 ≠ none ∧
      (transferHelper ctx fromID toID value).1.writes = ctx.writes ∧
      settle (transferHelper ctx fromID toID value) = ctx.state := by
  have hfail : (transferHelper ctx fromID toID value).2 ≠ none := by
    apply transferHelper_fails
    rintro ⟨hne, hpos, ⟨fb, hf, hle⟩, -⟩
    rcases h with h | h | h | h
    · omega
    · exact hne h
    · rw [hf] at h; exact Option.noConfusion h
    · unfold BalanceOf GetState at h
      simp only [hf] at h
      omega
  have hctx := transferHelper_error_ctx ctx fromID toID value hfail
  refine ⟨hfail, by rw [hctx], ?_⟩
  rw [settle_error _ hfail, hctx]

/-- Witness of C2: `alice` holds 100 and tries to move 150. -/
theorem transferHelper_rejects_witness :
    ((150 : Int) < 0 ∨ "alice" = "bob" ∨ (Ctx.start alice sampleState 0).state "alice" = none ∨
        (BalanceOf (Ctx.start alice sampleState 0) "alice").1 < 150) ∧
      ((transferHelper (Ctx.start alice sampleState 0) "alice" "bob" 150).2 ≠ none ∧
        (transferHelper (Ctx.start alice sampleState 0) "alice" "bob" 150).1.writes =
          (Ctx.start alice sampleState 0).writes ∧
        settle (transferHelper (Ctx.start alice sampleState 0) "alice" "bob" 150) =
          (Ctx.start alice sampleState 0).state) :=
  ⟨Or.inr (Or.inr (Or.inr (by decide))),
    transferHelper_rejects (Ctx.start alice sampleState 0) "alice" "bob" 150
      (Or.inr (Or.inr (Or.inr (by decide))))⟩

/-- C3: when `transferHelper` returns no error in a transaction that has not
written before, the balance of the sender is its old balance minus the value,
the balance of the recipient is its old balance (0 without a record) plus the
value, and every other key of the world state is unchanged. -/
theorem transferHelper_effect (ctx : Ctx) (fromID toID : String) (value : Int)
    (hw : ctx.writes = [])
    (h : (transferHelper ctx fromID toID value).2 = none) :
    BalanceOf { ctx with state := settle (transferHelper ctx fromID toID value) } fromID =
        ((BalanceOf ctx fromID).1 - value, none) ∧
      BalanceOf { ctx with state := settle (transferHelper ctx fromID toID value) } toID =
        ((BalanceOf ctx toID).1 + value, none) ∧
      ∀ k, k ≠ fromID → k ≠ toID →
        settle (transferHelper ctx fromID toID value) k = ctx.state k := by
  have hcond : fromID ≠ toID ∧ 0 < value ∧ (∃ fb, ctx.state fromID = some fb ∧
      value ≤ (Atoi fb).1) ∧ IsInt (storedInt ctx.state toID + value) := by
    by_contra hc
    exact transferHelper_fails ctx fromID toID value hc h
  obtain ⟨hne, hpos, ⟨fb, hf, hle⟩, hsum⟩ := hcond
  have heq := transferHelper_succeeds ctx fromID toID value fb hne hpos hf hle hsum
  have hfb := Atoi_isInt fb
  have hdiff : IsInt ((Atoi fb).1 - value) := by
    unfold IsInt minInt maxInt at hfb ⊢; omega
  have hst : settle (transferHelper ctx fromID toID value) =
      put (put ctx.state fromID (Itoa ((Atoi fb).1 - value))) toID
        (Itoa (storedInt ctx.state toID + value)) := by
    rw [heq]
    simp only [settle, hw, List.nil_append, commit_two]
  have hto : (BalanceOf ctx toID).1 = storedInt ctx.state toID := by
    unfold BalanceOf GetState storedInt
    cases ctx.state toID <;> rfl
  rw [hst]
  refine ⟨?_, ?_, ?_⟩
  · unfold BalanceOf GetState
    simp only [put, hf, if_neg hne, if_true, Atoi_Itoa _ hdiff]
  · rw [hto]
    unfold BalanceOf GetState
    simp only [put, if_true, Atoi_Itoa _ hsum]
  · intro k hk1 hk2
    simp only [put, if_neg hk1, if_neg hk2]

/-- Witness of C3: `alice` moves 30 of her 100 tokens to `bob`. -/
theorem transferHelper_effect_witness :
    ((Ctx.start alice sampleState 0).writes = [] ∧
        (transferHelper (Ctx.start alice sampleState 0) "alice" "bob" 30).2 = none) ∧
      (BalanceOf { Ctx.start alice sampleState 0 with
            state := settle (transferHelper (Ctx.start alice sampleState 0) "alice" "bob" 30) }
          "alice" = ((BalanceOf (Ctx.start alice sampleState 0) "alice").1 - 30, none) ∧
        BalanceOf { Ctx.start alice sampleState 0 with
            state := settle (transferHelper (Ctx.start alice sampleState 0) "alice" "bob" 30) }
          "bob" = ((BalanceOf (Ctx.start alice sampleState 0) "bob").1 + 30, none) ∧
        ∀ k, k ≠ "alice" → k ≠ "bob" →
          settle (transferHelper (Ctx.start alice sampleState 0) "alice" "bob" 30) k =
            (Ctx.start alice sampleState 0).state k) :=
  ⟨⟨rfl, by decide⟩,
    transferHelper_effect (Ctx.start alice sampleState 0) "alice" "bob" 30 rfl (by decide)⟩

/-- C4 (fails on the code): a client of another organisation, `mallory`, names
`alice` as the sender; `Transfer` succeeds, debits `alice` and credits
`mallory`. -/
theorem Transfer_debits_named_sender :
    (Ctx.start mallory sampleState 0).identity.id = ("mallory", none) ∧
      (Transfer (Ctx.start mallory sampleState 0) "alice" "mallory" 60).2 = none ∧
      settle (Transfer (Ctx.start mallory sampleState 0) "alice" "mallory" 60) "alice" =
        some "40" ∧
      settle (Transfer (Ctx.start mallory sampleState 0) "alice" "mallory" 60) "mallory" =
        some "60" := by
  decide

/-- C5: for an Org1MSP caller and a positive amount such that neither addition
overflows, `Mint` succeeds, the caller's balance and the total supply each
become their old value (0 when absent) plus the amount, and no other key
changes; for an amount that is not positive `Mint` returns an error and writes
nothing. -/
theorem Mint_spec (ctx : Ctx) (minter : String) (amount : Int) (hw : ctx.writes = []) :
    (ctx.identity.mspID = ("Org1MSP", none) → ctx.identity.id = (minter, none) →
        0 < amount → IsInt ((BalanceOf ctx minter).1 + amount) →
        IsInt ((TotalSupply ctx).1 + amount) →
        (Mint ctx amount).2 = none ∧
          BalanceOf { ctx with state := settle (Mint ctx amount) } minter =
            ((BalanceOf ctx minter).1 + amount, none) ∧
          TotalSupply { ctx with state := settle (Mint ctx amount) } =
            ((TotalSupply ctx).1 + amount, none) ∧
          ∀ k, k ≠ minter → k ≠ totalSupplyKey →
            settle (Mint ctx amount) k = ctx.state k) ∧
      (amount ≤ 0 →
        (Mint ctx amount).2 ≠ none ∧ (Mint ctx amount).1.writes = ctx.writes ∧
          settle (Mint ctx amount) = ctx.state) := by
  constructor
  · intro hmsp hid hpos hbal hsup
    rw [BalanceOf_fst] at hbal ⊢
    rw [TotalSupply_fst] at hsup ⊢
    have heq := Mint_succeeds ctx minter amount hmsp hid hpos hbal hsup
    have hst : settle (Mint ctx amount) =
        put (put ctx.state minter (Itoa (storedInt ctx.state minter + amount)))
          totalSupplyKey (Itoa (storedInt ctx.state totalSupplyKey + amount)) := by
      rw [heq]
      simp only [settle, hw, List.nil_append, commit_two]
    rw [hst]
    refine ⟨by rw [heq], ?_, ?_, ?_⟩
    · unfold BalanceOf GetState
      by_cases hk : minter = totalSupplyKey
      · simp only [put, hk, if_true, Atoi_Itoa _ hsup]
      · simp only [put, if_neg hk, if_true, Atoi_Itoa _ hbal]
    · unfold TotalSupply GetState
      simp only [put, if_true, Atoi_Itoa _ hsup]
    · intro k hk1 hk2
      simp only [put, if_neg hk1, if_neg hk2]
  · intro hle
    obtain ⟨herr, hctx⟩ := Mint_nonpositive ctx amount hle
    refine ⟨herr, by rw [hctx], ?_⟩
    rw [settle_error _ herr, hctx]

/-- Witness of C5: `alice`, of Org1MSP, mints 50 on top of her 100 tokens. -/
theorem Mint_spec_witness :
    ((Ctx.start alice sampleState 0).writes = [] ∧
        (Ctx.start alice sampleState 0).identity.mspID = ("Org1MSP", none) ∧
        (Ctx.start alice sampleState 0).identity.id = ("alice", none) ∧ (0 : Int) < 50 ∧
        IsInt ((BalanceOf (Ctx.start alice sampleState 0) "alice").1 + 50) ∧
        IsInt ((TotalSupply (Ctx.start alice sampleState 0)).1 + 50)) ∧
      ((Mint (Ctx.start alice sampleState 0) 50).2 = none ∧
        BalanceOf { Ctx.start alice sampleState 0 with
            state := settle (Mint (Ctx.start alice sampleState 0) 50) } "alice" =
          ((BalanceOf (Ctx.start alice sampleState 0) "alice").1 + 50, none) ∧
        TotalSupply { Ctx.start alice sampleState 0 with
            state := settle (Mint (Ctx.start alice sampleState 0) 50) } =
          ((TotalSupply (Ctx.start alice sampleState 0)).1 + 50, none) ∧
        ∀ k, k ≠ "alice" → k ≠ totalSupplyKey →
          settle (Mint (Ctx.start alice sampleState 0) 50) k =
            (Ctx.start alice sampleState 0).state k) :=
  ⟨⟨rfl, rfl, rfl, by decide, by decide, by decide⟩,
    (Mint_spec (Ctx.start alice sampleState 0) "alice" 50 rfl).1 rfl rfl (by decide)
      (by decide) (by decide)⟩

/-- C6: for a caller whose MSP ID is not `Org1MSP`, each of `Mint`, `Burn`,
`TransferConditional`, `Claim` and `Revert` returns an error, hands back the
context untouched (no write, no event) and leaves the world state unchanged,
whatever the other arguments. -/
theorem unauthorized_rejected (lib : Lib) (ctx : Ctx)
    (h : ctx.identity.mspID.1 ≠ "Org1MSP") :
    (∀ amount, (Mint ctx amount).2 ≠ none ∧ (Mint ctx amount).1 = ctx ∧
        settle (Mint ctx amount) = ctx.state) ∧
      (∀ amount, (Burn ctx amount).2 ≠ none ∧ (Burn ctx amount).1 = ctx ∧
        settle (Burn ctx amount) = ctx.state) ∧
      (∀ recipient amount hashLock timeLock claimPassword,
        (TransferConditional lib ctx recipient amount hashLock timeLock claimPassword).2 ≠
            none ∧
          (TransferConditional lib ctx recipient amount hashLock timeLock claimPassword).1 =
            ctx ∧
          settle (TransferConditional lib ctx recipient amount hashLock timeLock
            claimPassword) = ctx.state) ∧
      (∀ hashLock claimPassword,
        (Claim lib ctx hashLock claimPassword).2 ≠ none ∧
          (Claim lib ctx hashLock claimPassword).1 = ctx ∧
          settle (Claim lib ctx hashLock claimPassword) = ctx.state) ∧
      (∀ hashLock,
        (Revert lib ctx hashLock).2 ≠ none ∧ (Revert lib ctx hashLock).1 = ctx ∧
          settle (Revert lib ctx hashLock) = ctx.state) := by
  have key : ∀ r : Ctx × Option String, r.2 ≠ none → r.1 = ctx →
      r.2 ≠ none ∧ r.1 = ctx ∧ settle r = ctx.state := by
    intro r h1 h2
    exact ⟨h1, h2, by rw [settle_error r h1, h2]⟩
  rcases hm : ctx.identity.mspID with ⟨m, _ | e⟩
  · have hne : m ≠ "Org1MSP" := by rw [hm] at h; exact h
    refine ⟨?_, ?_, ?_, ?_, ?_⟩
    · intro amount
      apply key <;> (unfold Mint; simp [hm, hne])
    · intro amount
      apply key <;> (unfold Burn; simp [hm, hne])
    · intro recipient amount hashLock timeLock claimPassword
      apply key <;> (unfold TransferConditional; simp [hm, hne])
    · intro hashLock claimPassword
      apply key <;> (unfold Claim; simp [hm, hne])
    · intro hashLock
      apply key <;> (unfold Revert; simp [hm, hne])
  · refine ⟨?_, ?_, ?_, ?_, ?_⟩
    · intro amount
      apply key <;> (unfold Mint; simp [hm])
    · intro amount
      apply key <;> (unfold Burn; simp [hm])
    · intro recipient amount hashLock timeLock claimPassword
      apply key <;> (unfold TransferConditional; simp [hm])
    · intro hashLock claimPassword
      apply key <;> (unfold Claim; simp [hm])
    · intro hashLock
      apply key <;> (unfold Revert; simp [hm])

/-- Witness of C6: `mallory`, of another organisation, is turned away by `Mint`,
`Burn`, `TransferConditional`, `Claim` and `Revert`. -/
theorem unauthorized_rejected_witness :
    (Ctx.start mallory sampleState 0).identity.mspID.1 ≠ "Org1MSP" ∧
      (Mint (Ctx.start mallory sampleState 0) 5).2 ≠ none ∧
      (Burn (Ctx.start mallory sampleState 0) 5).2 ≠ none ∧
      (TransferConditional sampleLib (Ctx.start mallory sampleState 0) "bob" 5 "h" "t"
        "pw").2 ≠ none ∧
      (Claim sampleLib (Ctx.start mallory sampleState 0) "h" "pw").2 ≠ none ∧
      (Revert sampleLib (Ctx.start mallory sampleState 0) "h").2 ≠ none :=
  have h := unauthorized_rejected sampleLib (Ctx.start mallory sampleState 0) (by decide)
  ⟨by decide, (h.1 5).1, (h.2.1 5).1, (h.2.2.1 "bob" 5 "h" "t" "pw").1,
    (h.2.2.2.1 "h" "pw").1, (h.2.2.2.2 "h").1⟩

/-- C7: for an Org1MSP caller `Burn` succeeds exactly when the amount is
positive, the caller has a recorded balance of at least the amount and the
total supply is recorded and at least the amount; on success the balance and
the total supply each decrease by the amount and no other key changes. -/
theorem Burn_spec (ctx : Ctx) (minter : String) (amount : Int) (hw : ctx.writes = [])
    (hmsp : ctx.identity.mspID = ("Org1MSP", none))
    (hid : ctx.identity.id = (minter, none)) :
    ((Burn ctx amount).2 = none ↔
        (0 < amount ∧
          (ctx.state minter ≠ none ∧ amount ≤ (BalanceOf ctx minter).1) ∧
          (ctx.state totalSupplyKey ≠ none ∧ amount ≤ (TotalSupply ctx).1))) ∧
      ((Burn ctx amount).2 = none →
        BalanceOf { ctx with state := settle (Burn ctx amount) } minter =
            ((BalanceOf ctx minter).1 - amount, none) ∧
          TotalSupply { ctx with state := settle (Burn ctx amount) } =
            ((TotalSupply ctx).1 - amount, none) ∧
          ∀ k, k ≠ minter → k ≠ totalSupplyKey →
            settle (Burn ctx amount) k = ctx.state k) := by
  have hcases : (Burn ctx amount).2 = none →
      (0 < amount ∧ (∃ bb, ctx.state minter = some bb ∧ amount ≤ (Atoi bb).1) ∧
        (∃ tb, ctx.state totalSupplyKey = some tb ∧ amount ≤ (Atoi tb).1)) := by
    intro h
    by_contra hc
    exact Burn_fails ctx minter amount hmsp hid hc h
  constructor
  · constructor
    · intro h
      obtain ⟨hpos, ⟨bb, hb, hble⟩, ⟨tb, ht, htle⟩⟩ := hcases h
      rw [BalanceOf_fst, TotalSupply_fst]
      unfold storedInt
      simp only [hb, ht]
      exact ⟨hpos, ⟨by simp, hble⟩, ⟨by simp, htle⟩⟩
    · rintro ⟨hpos, ⟨hb0, hble⟩, ⟨ht0, htle⟩⟩
      rw [BalanceOf_fst] at hble
      rw [TotalSupply_fst] at htle
      unfold storedInt at hble htle
      cases hb : ctx.state minter with
      | none => exact absurd hb hb0
      | some bb =>
        cases ht : ctx.state totalSupplyKey with
        | none => exact absurd ht ht0
        | some tb =>
          simp only [hb] at hble
          simp only [ht] at htle
          rw [Burn_succeeds ctx minter amount bb tb hmsp hid hpos hb hble ht htle]
  · intro h
    obtain ⟨hpos, ⟨bb, hb, hble⟩, ⟨tb, ht, htle⟩⟩ := hcases h
    have heq := Burn_succeeds ctx minter amount bb tb hmsp hid hpos hb hble ht htle
    have hbb := Atoi_isInt bb
    have htb := Atoi_isInt tb
    have hd1 : IsInt ((Atoi bb).1 - amount) := by
      unfold IsInt minInt maxInt at hbb ⊢; omega
    have hd2 : IsInt ((Atoi tb).1 - amount) := by
      unfold IsInt minInt maxInt at htb ⊢; omega
    have hst : settle (Burn ctx amount) =
        put (put ctx.state minter (Itoa ((Atoi bb).1 - amount)))
          totalSupplyKey (Itoa ((Atoi tb).1 - amount)) := by
      rw [heq]
      simp only [settle, hw, List.nil_append, commit_two]
    rw [hst, BalanceOf_fst, TotalSupply_fst]
    unfold storedInt
    simp only [hb, ht]
    refine ⟨?_, ?_, ?_⟩
    · unfold BalanceOf GetState
      by_cases hk : minter = totalSupplyKey
      · have hsame : bb = tb := by
          rw [hk, ht] at hb; exact (Option.some.inj hb).symm
        simp only [put, hk, if_true, Atoi_Itoa _ hd2, hsame]
      · simp only [put, if_neg hk, if_true, Atoi_Itoa _ hd1]
    · unfold TotalSupply GetState
      simp only [put, if_true, Atoi_Itoa _ hd2]
    · intro k hk1 hk2
      simp only [put, if_neg hk1, if_neg hk2]

/-- Witness of C7: `alice`, of Org1MSP, burns 40 of her 100 tokens. -/
theorem Burn_spec_witness :
    ((Ctx.start alice sampleState 0).writes = [] ∧
        (Ctx.start alice sampleState 0).identity.mspID = ("Org1MSP", none) ∧
        (Ctx.start alice sampleState 0).identity.id = ("alice", none)) ∧
      (Burn (Ctx.start alice sampleState 0) 40).2 = none ∧
      BalanceOf { Ctx.start alice sampleState 0 with
          state := settle (Burn (Ctx.start alice sampleState 0) 40) } "alice" =
        ((BalanceOf (Ctx.start alice sampleState 0) "alice").1 - 40, none) :=
  ⟨⟨rfl, rfl, rfl⟩, by decide,
    ((Burn_spec (Ctx.start alice sampleState 0) "alice" 40 rfl rfl rfl).2 (by decide)).1⟩

/-- C8: on Go `int` arguments `add` returns the exact sum and no error exactly
when the sum is itself a Go `int`; otherwise it returns `0` and an error. -/
theorem add_checks_overflow (b q : Int) (hb : IsInt b) (hq : IsInt q) :
    (add b q = (b + q, none) ↔ IsInt (b + q)) ∧
      (¬ IsInt (b + q) → (add b q).1 = 0 ∧ (add b q).2 ≠ none) := by
  refine ⟨⟨?_, add_of_isInt⟩, ?_⟩
  · intro h
    by_contra hc
    rw [add_of_not_isInt hb hq hc] at h
    exact Option.noConfusion (congrArg Prod.snd h)
  · intro hc
    rw [add_of_not_isInt hb hq hc]
    exact ⟨rfl, by simp⟩

/-- Witness of C8: the largest `int` plus one overflows, `-5 + 3` does not. -/
theorem add_checks_overflow_witness :
    (IsInt maxInt ∧ IsInt 1) ∧ (add maxInt 1).1 = 0 ∧ (add maxInt 1).2 ≠ none :=
  ⟨⟨by decide, by decide⟩, (add_checks_overflow maxInt 1 (by decide) (by decide)).2 (by decide)⟩

/-- C9: on Go `int` arguments `sub` returns an error exactly when the
subtrahend is not positive or exceeds the minuend; otherwise it returns the
exact difference, which is non-negative and a Go `int`. -/
theorem sub_spec (b q : Int) (hb : IsInt b) :
    ((sub b q).2 ≠ none ↔ (q ≤ 0 ∨ b < q)) ∧
      (¬ (q ≤ 0 ∨ b < q) → sub b q = (b - q, none) ∧ 0 ≤ b - q ∧ IsInt (b - q)) := by
  refine ⟨sub_error_iff b q, ?_⟩
  intro h
  refine ⟨sub_of_le hb (by omega) (by omega), by omega, ?_⟩
  unfold IsInt minInt maxInt at hb ⊢
  omega

/-- Witness of C9: `100 - 30`. -/
theorem sub_spec_witness : IsInt 100 ∧ sub 100 30 = (100 - 30, none) :=
  ⟨by decide, ((sub_spec 100 30 (by decide)).2 (by decide)).1⟩

/-- C10 (as stated, fails on the code): after `alice` approves `bob` for 7, the
balance read under the account ID that spells the allowance key of
`(alice, bob)` has changed, from "no such account" to 7. -/
theorem Approve_changes_a_balance :
    (Approve (Ctx.start alice sampleState 0) "bob" 7).2 = none ∧
      BalanceOf (Ctx.start alice sampleState 0) "\x00allowance\x00alice\x00bob\x00" =
        (0, some "the account \x00allowance\x00alice\x00bob\x00 does not exist") ∧
      BalanceOf { Ctx.start alice sampleState 0 with
          state := settle (Approve (Ctx.start alice sampleState 0) "bob" 7) }
        "\x00allowance\x00alice\x00bob\x00" = (7, none) := by
  decide

/-- C10 (amended): after a successful `Approve(spender, value)` by `owner`,
`Allowance(owner, spender)` returns `value`, the allowance of every other pair
is as before, and so is the balance of every account whose ID is not the
allowance key of `(owner, spender)`; and a pair with nothing stored under its
key has allowance 0. -/
theorem Approve_Allowance (ctx : Ctx) (owner spender : String) (value : Int) :
    (ctx.writes = [] → ctx.identity.id = (owner, none) → IsInt value →
        (Approve ctx spender value).2 = none →
        Allowance { ctx with state := settle (Approve ctx spender value) } owner spender =
            (value, none) ∧
          (∀ o s, (o, s) ≠ (owner, spender) →
            Allowance { ctx with state := settle (Approve ctx spender value) } o s =
              Allowance ctx o s) ∧
          (∀ account, account ≠ (CreateCompositeKey allowancePrefix [owner, spender]).1 →
            BalanceOf { ctx with state := settle (Approve ctx spender value) } account =
              BalanceOf ctx account)) ∧
      (∀ o s, (CreateCompositeKey allowancePrefix [o, s]).2 = none →
        ctx.state (CreateCompositeKey allowancePrefix [o, s]).1 = none →
        Allowance ctx o s = (0, none)) := by
  constructor
  · intro hw hid hv hok
    have hkok := Approve_key_ok ctx owner spender value hid hok
    rcases hk : CreateCompositeKey allowancePrefix [owner, spender] with ⟨key, e⟩
    rw [hk] at hkok
    simp only [] at hkok
    subst hkok
    have heq := Approve_succeeds ctx owner spender key value hid hk
    have hst : settle (Approve ctx spender value) = put ctx.state key (Itoa value) := by
      rw [heq]
      simp only [settle, hw, List.nil_append, commit]
    rw [hst]
    refine ⟨?_, ?_, ?_⟩
    · unfold Allowance GetState
      simp only [hk, put, if_true, Atoi_Itoa _ hv]
    · intro o s hne
      unfold Allowance GetState
      rcases hk2 : CreateCompositeKey allowancePrefix [o, s] with ⟨k2, _ | e2⟩
      · have hkne : k2 ≠ key := by
          intro hsame
          have h1 : (CreateCompositeKey allowancePrefix [o, s]).2 = none := by rw [hk2]
          have h2 : (CreateCompositeKey allowancePrefix [owner, spender]).2 = none := by
            rw [hk]
          have h3 : (CreateCompositeKey allowancePrefix [o, s]).1 =
              (CreateCompositeKey allowancePrefix [owner, spender]).1 := by
            rw [hk, hk2]; exact hsame
          obtain ⟨e1, e2⟩ := CreateCompositeKey_inj o s owner spender h1 h2 h3
          exact hne (by rw [e1, e2])
        simp only [put, if_neg hkne]
      · simp only []
    · intro account hne
      unfold BalanceOf GetState
      simp only [put, if_neg hne]
  · intro o s hkok habs
    rcases hk : CreateCompositeKey allowancePrefix [o, s] with ⟨key, e⟩
    rw [hk] at hkok habs
    simp only [] at hkok habs
    subst hkok
    unfold Allowance GetState
    simp only [hk, habs]

/-- Witness of C10 (amended): `alice` approves `bob` for 7. -/
theorem Approve_Allowance_witness :
    ((Ctx.start alice sampleState 0).writes = [] ∧
        (Ctx.start alice sampleState 0).identity.id = ("alice", none) ∧ IsInt 7 ∧
        (Approve (Ctx.start alice sampleState 0) "bob" 7).2 = none) ∧
      Allowance { Ctx.start alice sampleState 0 with
          state := settle (Approve (Ctx.start alice sampleState 0) "bob" 7) } "alice" "bob" =
        (7, none) ∧
      BalanceOf { Ctx.start alice sampleState 0 with
          state := settle (Approve (Ctx.start alice sampleState 0) "bob" 7) } "alice" =
        BalanceOf (Ctx.start alice sampleState 0) "alice" :=
  have h := (Approve_Allowance (Ctx.start alice sampleState 0) "alice" "bob" 7).1 rfl rfl
    (by decide) (by decide)
  ⟨⟨rfl, rfl, by decide, by decide⟩, h.1, h.2.2 "alice" (by decide)⟩

/-- C11 (fails on the code): `bob` starts with an allowance of 50 on the
account of `alice`.  His `TransferFrom` of 50 from `carol` to the account whose
ID spells the allowance key of `(alice, bob)` succeeds and leaves 100 under
that key; with no `Approve` in between his `TransferFrom` of 100 from `alice`
then succeeds as well, so 100 has left `alice` against an allowance of 50. -/
theorem TransferFrom_exceeds_allowance :
    Allowance (Ctx.start bob overdrawState 0) "alice" "bob" = (50, none) ∧
      (TransferFrom (Ctx.start bob overdrawState 0) "carol"
        "\x00allowance\x00alice\x00bob\x00" 50).2 = none ∧
      Allowance (Ctx.start bob overdrawStateAfterFirst 0) "alice" "bob" = (100, none) ∧
      (TransferFrom (Ctx.start bob overdrawStateAfterFirst 0) "alice" "bob" 100).2 = none ∧
      BalanceOf (Ctx.start bob overdrawState 0) "alice" = (100, none) ∧
      BalanceOf (Ctx.start bob overdrawStateAfterSecond 0) "alice" = (0, none) ∧
      BalanceOf (Ctx.start bob overdrawStateAfterSecond 0) "bob" = (100, none) := by
  decide

end Chaincode

namespace Fabconnect

/-! ## Facts about event client keys -/

theorem append_cons_unique_right {α : Type} (a : α) (l1 l2 r1 r2 : List α)
    (h1 : a ∉ r1) (h2 : a ∉ r2) (h : l1 ++ a :: r1 = l2 ++ a :: r2) :
    l1 = l2 ∧ r1 = r2 := by
  have hrev := congrArg List.reverse h
  simp only [List.reverse_append, List.reverse_cons, List.append_assoc,
    List.singleton_append] at hrev
  obtain ⟨e1, e2⟩ := Chaincode.append_cons_unique a r1.reverse r2.reverse l1.reverse
    l2.reverse (by simpa using h1) (by simpa using h2) hrev
  exact ⟨List.reverse_injective e2, List.reverse_injective e1⟩

theorem GetKeyForEventClient_data (channelID chaincodeID : String) :
    (GetKeyForEventClient channelID chaincodeID).data =
      channelID.data ++ '-' :: chaincodeID.data := by
  unfold GetKeyForEventClient
  simp only [String.data_append, List.append_assoc]
  rfl

/-! ## Facts about the signer caches -/

theorem setKey_same {α : Type} (m : String → Option α) (key : String) (value : Option α) :
    setKey m key value key = value := by
  unfold setKey
  rw [if_pos rfl]

theorem setKey_other {α : Type} (m : String → Option α) (key k : String) (value : Option α)
    (h : k ≠ key) : setKey m key value k = m k := by
  unfold setKey
  rw [if_neg h]

/-! ## Facts about enrollment -/

theorem notifyLoop_eq (signer : String) (listeners : List Nat) :
    ∀ notified, notifyLoop notified signer listeners =
      notified ++ listeners.map (fun l => (l, signer)) := by
  induction listeners with
  | nil => intro notified; simp [notifyLoop]
  | cons l rest ih =>
    intro notified
    rw [notifyLoop, ih]
    simp

theorem count_map_pair (signer : String) (l : Nat) :
    ∀ ls : List Nat, (ls.map (fun k => (k, signer))).count (l, signer) = ls.count l := by
  intro ls
  induction ls with
  | nil => rfl
  | cons k rest ih =>
    simp only [List.map_cons, List.count_cons, ih]
    by_cases h : k = l
    · simp [h]
    · simp [h]

theorem foldl_AddSignerUpdateListener (ls : List Nat) :
    ∀ w, (ls.foldl AddSignerUpdateListener w).listeners = w.listeners ++ ls := by
  induction ls with
  | nil => intro w; simp
  | cons l rest ih =>
    intro w
    rw [List.foldl_cons, ih]
    simp [AddSignerUpdateListener]

/-! ## Facts about the reader task -/

theorem offers_append (xs ys : List ConnEvent) : offers (xs ++ ys) = offers xs ++ offers ys := by
  induction xs with
  | nil => rfl
  | cons x rest ih =>
    cases x <;> simp [offers, ih]

theorem offers_handleAckOrError (topic : String) (err : Option String) (taken : Bool) :
    offers (handleAckOrError topic err taken) = [(topic, err)] := by
  cases taken <;> rfl

theorem offers_handleFrame (lowerTable : Char → Char) (errorFromClient : String → String)
    (msg : webSocketCommandMessage) (taken : Bool) :
    offers (handleFrame lowerTable errorFromClient msg taken) =
      if toLower lowerTable msg.MsgType = "ack" then [(msg.Topic, none)]
      else if toLower lowerTable msg.MsgType = "error" then
        [(msg.Topic, some (errorFromClient msg.Message))]
      else [] := by
  unfold handleFrame
  by_cases h1 : toLower lowerTable msg.MsgType = "listen"
  · have h2 : toLower lowerTable msg.MsgType ≠ "ack" := by rw [h1]; decide
    have h3 : toLower lowerTable msg.MsgType ≠ "error" := by rw [h1]; decide
    simp [h1, h2, h3, offers]
  · by_cases h2 : toLower lowerTable msg.MsgType = "listenreplies"
    · have h3 : toLower lowerTable msg.MsgType ≠ "ack" := by rw [h2]; decide
      have h4 : toLower lowerTable msg.MsgType ≠ "error" := by rw [h2]; decide
      simp [h1, h2, h3, h4, offers]
    · by_cases h3 : toLower lowerTable msg.MsgType = "ack"
      · simp [h1, h2, h3, offers_handleAckOrError]
      · by_cases h4 : toLower lowerTable msg.MsgType = "error"
        · simp [h1, h2, h3, h4, offers_handleAckOrError]
        · simp [h1, h2, h3, h4, offers]

theorem close_mem_handleFrame (lowerTable : Char → Char) (errorFromClient : String → String)
    (msg : webSocketCommandMessage) (taken : Bool) :
    ConnEvent.close ∈ handleFrame lowerTable errorFromClient msg taken ↔
      (taken = false ∧ (toLower lowerTable msg.MsgType = "ack" ∨ toLower lowerTable msg.MsgType = "error")) := by
  unfold handleFrame handleAckOrError
  by_cases h1 : toLower lowerTable msg.MsgType = "listen"
  · have h2 : toLower lowerTable msg.MsgType ≠ "ack" := by rw [h1]; decide
    have h3 : toLower lowerTable msg.MsgType ≠ "error" := by rw [h1]; decide
    simp [h1, h2, h3]
  · by_cases h2 : toLower lowerTable msg.MsgType = "listenreplies"
    · have h3 : toLower lowerTable msg.MsgType ≠ "ack" := by rw [h2]; decide
      have h4 : toLower lowerTable msg.MsgType ≠ "error" := by rw [h2]; decide
      simp [h1, h2, h3, h4]
    · by_cases h3 : toLower lowerTable msg.MsgType = "ack"
      · cases taken <;> simp [h1, h2, h3]
      · by_cases h4 : toLower lowerTable msg.MsgType = "error"
        · cases taken <;> simp [h1, h2, h3, h4]
        · simp [h1, h2, h3, h4]

theorem listen_close_iff (lowerTable : Char → Char) (errorFromClient : String → String)
    (reads : List ReadResult) :
    ConnEvent.close ∈ (listen lowerTable errorFromClient reads).1 ↔
      ∃ r ∈ reads, (∃ e, r = ReadResult.failure e) ∨
        (∃ msg, r = ReadResult.frame msg false ∧
          (toLower lowerTable msg.MsgType = "ack" ∨
            toLower lowerTable msg.MsgType = "error")) := by
  induction reads with
  | nil => simp [listen]
  | cons r rest ih =>
    cases r with
    | failure e => simp [listen]
    | frame msg taken =>
      rw [listen]
      by_cases hc : ConnEvent.close ∈ handleFrame lowerTable errorFromClient msg taken
      · rw [if_pos hc]
        have hc2 := (close_mem_handleFrame lowerTable errorFromClient msg taken).mp hc
        constructor
        · intro _
          refine ⟨ReadResult.frame msg taken, List.mem_cons_self _ _, Or.inr ⟨msg, ?_, hc2.2⟩⟩
          rw [hc2.1]
        · intro _
          simp
      · rw [if_neg hc]
        simp only [List.mem_append, hc, false_or, ih]
        constructor
        · rintro ⟨r, hr, h⟩
          exact ⟨r, List.mem_cons_of_mem _ hr, h⟩
        · rintro ⟨r, hr, h⟩
          rcases List.mem_cons.mp hr with hhead | htail
          · exfalso
            subst hhead
            rcases h with ⟨e, he⟩ | ⟨msg2, he, hty⟩
            · exact ReadResult.noConfusion he
            · injection he with hm ht
              subst hm
              exact hc ((close_mem_handleFrame lowerTable errorFromClient msg taken).mpr ⟨ht, hty⟩)
          · exact ⟨r, htail, h⟩

theorem listen_returned_iff (lowerTable : Char → Char) (errorFromClient : String → String)
    (reads : List ReadResult) :
    (listen lowerTable errorFromClient reads).2 = TaskEnd.returned ↔
      ConnEvent.close ∈ (listen lowerTable errorFromClient reads).1 := by
  induction reads with
  | nil => simp [listen]
  | cons r rest ih =>
    cases r with
    | failure e => simp [listen]
    | frame msg taken =>
      rw [listen]
      by_cases hc : ConnEvent.close ∈ handleFrame lowerTable errorFromClient msg taken
      · simp [hc]
      · simp [hc, ih]

/-! ## Facts about the sender task -/

theorem buildCases_cons (topic : String) (topics : List String) :
    buildCases (topic :: topics) = Chan.senderChannel topic :: buildCases topics := rfl

theorem buildCases_length (topics : List String) :
    (buildCases topics).length = topics.length + 3 := by
  simp [buildCases]

theorem buildCases_newTopic (topics : List String) :
    ∀ chosen, (buildCases topics)[chosen]? = some Chan.newTopic ↔
      chosen = (buildCases topics).length - 1 := by
  induction topics with
  | nil =>
    intro chosen
    rcases chosen with _ | _ | _ | n <;> simp [buildCases]
  | cons topic rest ih =>
    intro chosen
    rw [buildCases_cons]
    cases chosen with
    | zero => simp [buildCases_length]
    | succ n =>
      rw [List.getElem?_cons_succ, ih n]
      simp only [List.length_cons, buildCases_length]
      omega

/-! ## Facts about `GetEvents` -/

theorem eventsOfTx_length (blockNumber txIndex : Nat) (events : List ChaincodeEvent) :
    ∀ eventIndex, (eventsOfTx blockNumber txIndex eventIndex events).length = events.length := by
  induction events with
  | nil => intro eventIndex; rfl
  | cons ev rest ih => intro eventIndex; simp [eventsOfTx, ih]

theorem mem_eventsOfTx (blockNumber txIndex : Nat) (events : List ChaincodeEvent)
    (entry : EventEntry) :
    ∀ eventIndex, entry ∈ eventsOfTx blockNumber txIndex eventIndex events →
      entry.BlockNumber = blockNumber ∧ entry.TransactionIndex = txIndex ∧
        ∃ ev ∈ events, entry.ChaincodeID = ev.ChaincodeID ∧ entry.EventName = ev.EventName ∧
          entry.TransactionID = ev.TxID ∧ entry.Timestamp = ev.Timestamp := by
  induction events with
  | nil => intro eventIndex h; simp [eventsOfTx] at h
  | cons ev rest ih =>
    intro eventIndex h
    rw [eventsOfTx, List.mem_cons] at h
    rcases h with h | h
    · subst h
      exact ⟨rfl, rfl, ev, List.mem_cons_self _ _, rfl, rfl, rfl, rfl⟩
    · obtain ⟨h1, h2, ev2, hev, h3⟩ := ih _ h
      exact ⟨h1, h2, ev2, List.mem_cons_of_mem _ hev, h3⟩

theorem eventsOfTx_of_mem (blockNumber txIndex : Nat) (events : List ChaincodeEvent)
    (ev : ChaincodeEvent) (hev : ev ∈ events) :
    ∀ eventIndex, ∃ entry ∈ eventsOfTx blockNumber txIndex eventIndex events,
      entry.BlockNumber = blockNumber ∧ entry.TransactionIndex = txIndex ∧
        entry.ChaincodeID = ev.ChaincodeID ∧ entry.EventName = ev.EventName ∧
        entry.TransactionID = ev.TxID ∧ entry.Timestamp = ev.Timestamp := by
  induction events with
  | nil => simp at hev
  | cons ev2 rest ih =>
    intro eventIndex
    rw [eventsOfTx]
    rcases List.mem_cons.mp hev with h | h
    · subst h
      exact ⟨_, List.mem_cons_self _ _, rfl, rfl, rfl, rfl, rfl, rfl⟩
    · obtain ⟨entry, hmem, hrest⟩ := ih h (eventIndex + 1)
      exact ⟨entry, List.mem_cons_of_mem _ hmem, hrest⟩

theorem eventsOfTxs_length (blockNumber : Nat) (txs : List (List ChaincodeEvent)) :
    ∀ txIndex, (eventsOfTxs blockNumber txIndex txs).length = (txs.map List.length).sum := by
  induction txs with
  | nil => intro txIndex; rfl
  | cons tx rest ih =>
    intro txIndex
    simp [eventsOfTxs, eventsOfTx_length, ih]

theorem mem_eventsOfTxs (blockNumber : Nat) (txs : List (List ChaincodeEvent))
    (entry : EventEntry) :
    ∀ txIndex, entry ∈ eventsOfTxs blockNumber txIndex txs →
      entry.BlockNumber = blockNumber ∧
        ∃ (i : Nat) (tx : List ChaincodeEvent) (ev : ChaincodeEvent),
          txs[i]? = some tx ∧ ev ∈ tx ∧ entry.TransactionIndex = ((txIndex + i : Nat) : Int) ∧
            entry.ChaincodeID = ev.ChaincodeID ∧ entry.EventName = ev.EventName ∧
            entry.TransactionID = ev.TxID ∧ entry.Timestamp = ev.Timestamp := by
  induction txs with
  | nil => intro txIndex h; simp [eventsOfTxs] at h
  | cons tx rest ih =>
    intro txIndex h
    rw [eventsOfTxs, List.mem_append] at h
    rcases h with h | h
    · obtain ⟨h1, h2, ev, hev, h3⟩ := mem_eventsOfTx _ _ _ _ _ h
      exact ⟨h1, 0, tx, ev, by simp, hev, by simpa using h2, h3⟩
    · obtain ⟨h1, i, tx2, ev, hi, hev, h2, h3⟩ := ih _ h
      refine ⟨h1, i + 1, tx2, ev, by simpa using hi, hev, ?_, h3⟩
      rw [h2]
      congr 1
      omega

theorem eventsOfTxs_of_mem (blockNumber : Nat) (txs : List (List ChaincodeEvent))
    (ev : ChaincodeEvent) :
    ∀ (i txIndex : Nat) (tx : List ChaincodeEvent), txs[i]? = some tx → ev ∈ tx →
      ∃ entry ∈ eventsOfTxs blockNumber txIndex txs,
        entry.BlockNumber = blockNumber ∧ entry.TransactionIndex = ((txIndex + i : Nat) : Int) ∧
          entry.ChaincodeID = ev.ChaincodeID ∧ entry.EventName = ev.EventName ∧
          entry.TransactionID = ev.TxID ∧ entry.Timestamp = ev.Timestamp := by
  induction txs with
  | nil => intro i txIndex tx h; simp at h
  | cons tx0 rest ih =>
    intro i txIndex tx h hev
    rw [eventsOfTxs]
    cases i with
    | zero =>
      simp only [List.getElem?_cons_zero, Option.some.injEq] at h
      subst h
      obtain ⟨entry, hmem, h1, h2, h3⟩ := eventsOfTx_of_mem blockNumber txIndex tx0 ev hev 0
      exact ⟨entry, List.mem_append_left _ hmem, h1, by simpa using h2, h3⟩
    | succ n =>
      rw [List.getElem?_cons_succ] at h
      obtain ⟨entry, hmem, h1, h2, h3⟩ := ih n (txIndex + 1) tx h hev
      refine ⟨entry, List.mem_append_right _ hmem, h1, ?_, h3⟩
      rw [h2]
      congr 1
      omega

/-! ## The claims on firefly-fabconnect -/

/-- C12 (as stated, fails on the code): the channel `a-b` with the chaincode
`c` and the channel `a` with the chaincode `b-c` get the same key. -/
theorem GetKeyForEventClient_collision :
    GetKeyForEventClient "a-b" "c" = GetKeyForEventClient "a" "b-c" ∧
      ¬ (("a-b" : String) = "a" ∧ ("c" : String) = "b-c") := by
  decide

/-- C12 (amended): the key is the channel ID, a hyphen, then the chaincode ID;
and when neither channel ID holds a hyphen, or neither chaincode ID does, two
keys are equal exactly when the channel IDs are equal and the chaincode IDs are
equal. -/
theorem GetKeyForEventClient_inj (c1 k1 c2 k2 : String)
    (h : ('-' ∉ c1.data ∧ '-' ∉ c2.data) ∨ ('-' ∉ k1.data ∧ '-' ∉ k2.data)) :
    (GetKeyForEventClient c1 k1).data = c1.data ++ '-' :: k1.data ∧
      (GetKeyForEventClient c1 k1 = GetKeyForEventClient c2 k2 ↔ c1 = c2 ∧ k1 = k2) := by
  refine ⟨GetKeyForEventClient_data c1 k1, ?_, ?_⟩
  · intro heq
    have hd := congrArg String.data heq
    rw [GetKeyForEventClient_data, GetKeyForEventClient_data] at hd
    rcases h with ⟨h1, h2⟩ | ⟨h1, h2⟩
    · obtain ⟨e1, e2⟩ := Chaincode.append_cons_unique '-' _ _ _ _ h1 h2 hd
      exact ⟨String.ext e1, String.ext e2⟩
    · obtain ⟨e1, e2⟩ := append_cons_unique_right '-' _ _ _ _ h1 h2 hd
      exact ⟨String.ext e1, String.ext e2⟩
  · rintro ⟨e1, e2⟩
    rw [e1, e2]

/-- Witness of C12 (amended): the channels `ch1`, `ch2` hold no hyphen. -/
theorem GetKeyForEventClient_inj_witness :
    (('-' ∉ ("ch1" : String).data ∧ '-' ∉ ("ch2" : String).data) ∨
        ('-' ∉ ("asset-transfer" : String).data ∧ '-' ∉ ("asset-transfer" : String).data)) ∧
      (GetKeyForEventClient "ch1" "asset-transfer" =
          GetKeyForEventClient "ch2" "asset-transfer" ↔
        ("ch1" : String) = "ch2" ∧ ("asset-transfer" : String) = "asset-transfer") :=
  ⟨Or.inl (by decide),
    (GetKeyForEventClient_inj "ch1" "asset-transfer" "ch2" "asset-transfer"
      (Or.inl (by decide))).2⟩

/-- C13: after `SignerUpdated(s)` the next `getGatewayClient(channel, s)` calls
the gateway creator again and, on the gateway it returns, the network creator;
the next `getChannelClient(channel, s)` calls the channel creator again; what
they return is what the creators return, not a client cached earlier.  For
another signer `t` the cached clients are still returned and no creator is
called. -/
theorem SignerUpdated_invalidates (env : Creators) (w : gwRPCWrapper)
    (s channelID : String) :
    (∃ rest, (getGatewayClient env (SignerUpdated w s) channelID s).1.calls =
        w.calls ++ CreatorCall.gateway s :: rest) ∧
      (∀ gw, env.gatewayCreator s = (gw, none) →
        (getGatewayClient env (SignerUpdated w s) channelID s).1.calls =
            w.calls ++ [CreatorCall.gateway s, CreatorCall.network gw channelID] ∧
          (getGatewayClient env (SignerUpdated w s) channelID s).2.2 =
            (env.networkCreator gw channelID).2 ∧
          ((env.networkCreator gw channelID).2 = none →
            (getGatewayClient env (SignerUpdated w s) channelID s).2.1 =
              (env.networkCreator gw channelID).1)) ∧
      (∀ org, env.getOrgFromConfig = (org, none) →
        (getChannelClient env (SignerUpdated w s) channelID s).1.calls =
            w.calls ++ [CreatorCall.channel channelID s org] ∧
          ((getChannelClient env (SignerUpdated w s) channelID s).2.2 = none ↔
            (env.channelCreator channelID s org).2 = none) ∧
          ((env.channelCreator channelID s org).2 = none →
            (getChannelClient env (SignerUpdated w s) channelID s).2.1 =
              (env.channelCreator channelID s org).1)) ∧
      (∀ t m net, t ≠ s → w.gwGatewayClients t = some m → m channelID = some net →
        getGatewayClient env (SignerUpdated w s) channelID t =
          (SignerUpdated w s, (some net, none))) ∧
      (∀ t m client, t ≠ s → w.gwChannelClients t = some m → m channelID = some client →
        getChannelClient env (SignerUpdated w s) channelID t =
          (SignerUpdated w s, (some client, none))) := by
  have hg : (SignerUpdated w s).gwGatewayClients s = none := setKey_same _ _ _
  have hc : (SignerUpdated w s).gwChannelClients s = none := setKey_same _ _ _
  have hcalls : (SignerUpdated w s).calls = w.calls := rfl
  refine ⟨?_, ?_, ?_, ?_, ?_⟩
  · unfold getGatewayClient
    simp only [hg, hcalls]
    rcases env.gatewayCreator s with ⟨gw, _ | e⟩
    · simp only [getGatewayClientForChannel, emptyMap]
      rcases env.networkCreator _ channelID with ⟨net, _ | e2⟩
      · exact ⟨[CreatorCall.network (setKey (SignerUpdated w s).gwClients s gw s) channelID],
          by simp⟩
      · exact ⟨[CreatorCall.network (setKey (SignerUpdated w s).gwClients s gw s) channelID],
          by simp⟩
    · exact ⟨[], rfl⟩
  · intro gw hgw
    unfold getGatewayClient
    simp only [hg, hcalls, hgw, getGatewayClientForChannel, emptyMap, setKey_same]
    rcases env.networkCreator gw channelID with ⟨net, _ | e2⟩ <;> simp
  · intro org horg
    unfold getChannelClient
    simp only [hc, hcalls, getChannelClientForChannel, emptyMap, horg]
    rcases env.channelCreator channelID s org with ⟨client, _ | e2⟩ <;> simp
  · intro t m net hts hm hnet
    have hgt : (SignerUpdated w s).gwGatewayClients t = some m := by
      rw [← hm]; exact setKey_other _ _ _ _ hts
    unfold getGatewayClient
    simp only [hgt, getGatewayClientForChannel, hnet]
  · intro t m client hts hm hcl
    have hct : (SignerUpdated w s).gwChannelClients t = some m := by
      rw [← hm]; exact setKey_other _ _ _ _ hts
    unfold getChannelClient
    simp only [hct, getChannelClientForChannel, hcl]

/-- Witness of C13: `user1` is updated; its clients are created anew while the
cached network client of `user2` is returned as it is. -/
theorem SignerUpdated_invalidates_witness :
    (sampleCreators.gatewayCreator "user1" = (some { handle := 1 }, none) ∧
        "user2" ≠ "user1") ∧
      (getGatewayClient sampleCreators (SignerUpdated sampleWrapper "user1") "ch" "user1").1.calls =
        sampleWrapper.calls ++
          [CreatorCall.gateway "user1", CreatorCall.network (some { handle := 1 }) "ch"] ∧
      (getGatewayClient sampleCreators (SignerUpdated sampleWrapper "user1") "ch" "user1").2 =
        (some { handle := 2 }, none) ∧
      getGatewayClient sampleCreators (SignerUpdated sampleWrapper "user1") "ch" "user2" =
        (SignerUpdated sampleWrapper "user1", (some { handle := 20 }, none)) :=
  have h := SignerUpdated_invalidates sampleCreators sampleWrapper "user1" "ch"
  ⟨⟨rfl, by decide⟩, (h.2.1 _ rfl).1, by decide,
    h.2.2.2.1 "user2" (fun c => if c = "ch" then some { handle := 20 } else none)
      { handle := 20 } (by decide) (by simp [sampleWrapper]) (by simp)⟩

/-- C14 (as stated, fails on the code): the listener 7 is registered twice; a
successful `Enroll` of `user1` then calls `SignerUpdated` on it twice, not
once. -/
theorem listener_registered_twice_is_called_twice :
    (AddSignerUpdateListener
        (AddSignerUpdateListener { listeners := [], notified := [] } 7) 7).listeners =
        [7, 7] ∧
      (Enroll sampleAuthority
        (AddSignerUpdateListener
          (AddSignerUpdateListener { listeners := [], notified := [] } 7) 7)
        "pw" "user1").2 = (some { Name := "", Success := true }, none) ∧
      (Enroll sampleAuthority
        (AddSignerUpdateListener
          (AddSignerUpdateListener { listeners := [], notified := [] } 7) 7)
        "pw" "user1").1.notified = [(7, "user1"), (7, "user1")] := by
  decide

/-- C14 (amended): listeners are kept in registration order.  `Enroll`
succeeds exactly when the body decodes, the secret is not empty and the CA
accepts the request built from the body and the user name; `Reenroll` succeeds
exactly when the body decodes and the CA accepts.  A success calls
`SignerUpdated(username)` once per registration, in registration order (so
exactly once on a listener that was registered once); an error return comes
with the wrapper untouched, so no listener is called. -/
theorem enrollment_notifies (ca : Authority) (w : idClientWrapper) (body username : String) :
    (∀ ls, (ls.foldl AddSignerUpdateListener w).listeners = w.listeners ++ ls) ∧
      ((Enroll ca w body username).2.2 = none ↔
        ((ca.decode body).2 = none ∧ (ca.decode body).1.Secret ≠ "" ∧
          ca.caEnroll
            { Name := username, Secret := (ca.decode body).1.Secret,
              CAName := (ca.decode body).1.CAName, Profile := (ca.decode body).1.Profile,
              AttrReqs := (ca.decode body).1.AttrReqs.map (List.map id) } = none)) ∧
      ((Enroll ca w body username).2.2 = none →
        (Enroll ca w body username).1.listeners = w.listeners ∧
          (Enroll ca w body username).1.notified =
            w.notified ++ w.listeners.map (fun l => (l, username)) ∧
          (Enroll ca w body username).2.1 =
            some { Name := (ca.decode body).1.Name, Success := true }) ∧
      ((Enroll ca w body username).2.2 ≠ none →
        (Enroll ca w body username).1 = w ∧ (Enroll ca w body username).2.1 = none) ∧
      ((Reenroll ca w body username).2.2 = none ↔
        ((ca.decode body).2 = none ∧
          ca.caReenroll
            { Name := username, CAName := (ca.decode body).1.CAName,
              Profile := (ca.decode body).1.Profile,
              AttrReqs := (ca.decode body).1.AttrReqs.map (List.map id) } = none)) ∧
      ((Reenroll ca w body username).2.2 = none →
        (Reenroll ca w body username).1.listeners = w.listeners ∧
          (Reenroll ca w body username).1.notified =
            w.notified ++ w.listeners.map (fun l => (l, username)) ∧
          (Reenroll ca w body username).2.1 = some { Name := username, Success := true }) ∧
      ((Reenroll ca w body username).2.2 ≠ none →
        (Reenroll ca w body username).1 = w ∧ (Reenroll ca w body username).2.1 = none) ∧
      (∀ l, (w.listeners.map (fun k => (k, username))).count (l, username) =
        w.listeners.count l) := by
  refine ⟨fun ls => foldl_AddSignerUpdateListener ls w, ?_, ?_, ?_, ?_, ?_, ?_, ?_⟩
  · unfold Enroll
    rcases hd : ca.decode body with ⟨enreq, _ | e⟩
    · by_cases hs : enreq.Secret = ""
      · simp [hs]
      · simp only [if_neg hs]
        cases hc : ca.caEnroll _ with
        | some e => simp [hs]
        | none => simp [hs]
    · simp
  · unfold Enroll
    rcases hd : ca.decode body with ⟨enreq, _ | e⟩
    · by_cases hs : enreq.Secret = ""
      · simp [hs]
      · simp only [if_neg hs]
        cases hc : ca.caEnroll _ with
        | some e => simp
        | none => simp [notifySignerUpdate, notifyLoop_eq]
    · simp
  · unfold Enroll
    rcases hd : ca.decode body with ⟨enreq, _ | e⟩
    · by_cases hs : enreq.Secret = ""
      · simp [hs]
      · simp only [if_neg hs]
        cases hc : ca.caEnroll _ with
        | some e => simp
        | none => simp
    · simp
  · unfold Reenroll
    rcases hd : ca.decode body with ⟨enreq, _ | e⟩
    · simp only []
      cases hc : ca.caReenroll _ with
      | some e => simp
      | none => simp
    · simp
  · unfold Reenroll
    rcases hd : ca.decode body with ⟨enreq, _ | e⟩
    · simp only []
      cases hc : ca.caReenroll _ with
      | some e => simp
      | none => simp [notifySignerUpdate, notifyLoop_eq]
    · simp
  · unfold Reenroll
    rcases hd : ca.decode body with ⟨enreq, _ | e⟩
    · simp only []
      cases hc : ca.caReenroll _ with
      | some e => simp
      | none => simp
    · simp
  · intro l
    exact count_map_pair username l w.listeners

/-- Witness of C14 (amended): two listeners registered in the order 7, 9.  A
good `Enroll` and a good `Reenroll` of `user1` each notify 7 then 9; a body
that does not decode notifies nobody. -/
theorem enrollment_notifies_witness :
    (Enroll sampleAuthority { listeners := [7, 9], notified := [] } "pw" "user1").2 =
        (some { Name := "", Success := true }, none) ∧
      (Enroll sampleAuthority { listeners := [7, 9], notified := [] } "pw" "user1").1.notified =
        [(7, "user1"), (9, "user1")] ∧
      (Reenroll sampleAuthority { listeners := [7, 9], notified := [] } "x" "user1").2 =
        (some { Name := "user1", Success := true }, none) ∧
      (Reenroll sampleAuthority { listeners := [7, 9], notified := [] } "x" "user1").1.notified =
        [] ++ [7, 9].map (fun l => (l, "user1")) ∧
      (Reenroll sampleAuthority { listeners := [7, 9], notified := [] } "" "user1").1.notified =
        [] ∧
      (Enroll sampleAuthority { listeners := [7, 9], notified := [] } "" "user1").1.notified =
        [] :=
  have h := enrollment_notifies sampleAuthority { listeners := [7, 9], notified := [] }
  ⟨by decide, by decide, by decide, ((h "x" "user1").2.2.2.2.2.1 (by decide)).2.1,
    by decide, by decide⟩

/-- C15 (as stated, fails on the code): a frame of type `ACK`, which is neither
`ack` nor `error`, puts the nil value on the receiver channel of its topic,
whatever Unicode's case table says about other runes. -/
theorem upper_case_ack_is_routed :
    ("ACK" : String) ≠ "ack" ∧ ("ACK" : String) ≠ "error" ∧
      ∀ lowerTable, offers (listen lowerTable sampleErrorFromClient
        [ReadResult.frame { MsgType := "ACK", Topic := "t", Message := "" } true]).1 =
        [("t", none)] :=
  ⟨by decide, by decide, fun _ => rfl⟩

/-- C15 (amended): with the frame type lower-cased by `strings.ToLower` first,
a frame of type `ack` and topic `T` offers the nil value on the receiver
channel of `T`, a frame of type `error` with topic `T` and message `M` offers
the error built from `M` there, and a frame of any other type offers nothing;
every value the reader task offers comes from such a frame it has read. -/
theorem replies_routed (lowerTable : Char → Char) (errorFromClient : String → String) :
    (∀ msg taken, toLower lowerTable msg.MsgType = "ack" →
        offers (handleFrame lowerTable errorFromClient msg taken) = [(msg.Topic, none)]) ∧
      (∀ msg taken, toLower lowerTable msg.MsgType = "error" →
        offers (handleFrame lowerTable errorFromClient msg taken) =
          [(msg.Topic, some (errorFromClient msg.Message))]) ∧
      (∀ msg taken, toLower lowerTable msg.MsgType ≠ "ack" →
        toLower lowerTable msg.MsgType ≠ "error" →
        offers (handleFrame lowerTable errorFromClient msg taken) = []) ∧
      (∀ reads topic err, (topic, err) ∈ offers (listen lowerTable errorFromClient reads).1 →
        ∃ msg taken, ReadResult.frame msg taken ∈ reads ∧ msg.Topic = topic ∧
          ((toLower lowerTable msg.MsgType = "ack" ∧ err = none) ∨
            (toLower lowerTable msg.MsgType = "error" ∧
              err = some (errorFromClient msg.Message)))) := by
  refine ⟨?_, ?_, ?_, ?_⟩
  · intro msg taken h
    rw [offers_handleFrame, if_pos h]
  · intro msg taken h
    have h2 : toLower lowerTable msg.MsgType ≠ "ack" := by rw [h]; decide
    rw [offers_handleFrame, if_neg h2, if_pos h]
  · intro msg taken h1 h2
    rw [offers_handleFrame, if_neg h1, if_neg h2]
  · intro reads
    induction reads with
    | nil => intro topic err h; simp [listen, offers] at h
    | cons r rest ih =>
      intro topic err h
      cases r with
      | failure e => simp [listen, offers] at h
      | frame msg taken =>
        have hframe : (topic, err) ∈ offers (handleFrame lowerTable errorFromClient msg taken) →
            ∃ msg2 taken2, ReadResult.frame msg2 taken2 ∈ ReadResult.frame msg taken :: rest ∧
              msg2.Topic = topic ∧ ((toLower lowerTable msg2.MsgType = "ack" ∧ err = none) ∨
                (toLower lowerTable msg2.MsgType = "error" ∧
                  err = some (errorFromClient msg2.Message))) := by
          intro hm
          rw [offers_handleFrame] at hm
          refine ⟨msg, taken, List.mem_cons_self _ _, ?_⟩
          by_cases h1 : toLower lowerTable msg.MsgType = "ack"
          · rw [if_pos h1] at hm
            simp only [List.mem_singleton, Prod.mk.injEq] at hm
            exact ⟨hm.1.symm, Or.inl ⟨h1, hm.2⟩⟩
          · rw [if_neg h1] at hm
            by_cases h2 : toLower lowerTable msg.MsgType = "error"
            · rw [if_pos h2] at hm
              simp only [List.mem_singleton, Prod.mk.injEq] at hm
              exact ⟨hm.1.symm, Or.inr ⟨h2, hm.2⟩⟩
            · rw [if_neg h2] at hm
              simp at hm
        rw [listen] at h
        by_cases hc : ConnEvent.close ∈ handleFrame lowerTable errorFromClient msg taken
        · rw [if_pos hc] at h
          simp only [offers_append, List.mem_append] at h
          rcases h with h | h
          · exact hframe h
          · simp [offers] at h
        · rw [if_neg hc] at h
          simp only [offers_append, List.mem_append] at h
          rcases h with h | h
          · exact hframe h
          · obtain ⟨msg2, taken2, hmem, hrest⟩ := ih topic err h
            exact ⟨msg2, taken2, List.mem_cons_of_mem _ hmem, hrest⟩

/-- Witness of C15 (amended): with the Kelvin sign lowered to `k`, a frame of
type `AC` followed by U+212A is an ack, and one of type `Error` is an error. -/
theorem replies_routed_witness :
    (toLower sampleLowerTable "AC\u212A" = "ack" ∧
        toLower sampleLowerTable "Error" = "error") ∧
      offers (handleFrame sampleLowerTable sampleErrorFromClient
        { MsgType := "AC\u212A", Topic := "t", Message := "" } true) = [("t", none)] ∧
      offers (handleFrame sampleLowerTable sampleErrorFromClient
        { MsgType := "Error", Topic := "t", Message := "boom" } true) =
        [("t", some (sampleErrorFromClient "boom"))] :=
  have h := replies_routed sampleLowerTable sampleErrorFromClient
  ⟨⟨by decide, by decide⟩,
    h.1 { MsgType := "AC\u212A", Topic := "t", Message := "" } true (by decide),
    h.2.1 { MsgType := "Error", Topic := "t", Message := "boom" } true (by decide)⟩

/-- C16 (as stated, fails on the code): a client listens on topic `t`, a batch
is written to its socket, and the client never replies.  The reader task waits
in `ReadJSON`, the sender task waits in its `select`, and `close()` is not
invoked, however long this lasts. -/
theorem silent_client_is_not_closed :
    sender ["t"] [{ chosen := 0, value := "batch", ok := true, topics := ["t"] }] =
        ([SenderEvent.writeJSON "batch"], TaskEnd.waiting) ∧
      ∀ lowerTable,
        listen lowerTable sampleErrorFromClient
            [ReadResult.frame { MsgType := "listen", Topic := "t", Message := "" } true] =
          ([ConnEvent.listenTopic "t"], TaskEnd.waiting) ∧
        ConnEvent.close ∉ (listen lowerTable sampleErrorFromClient
          [ReadResult.frame { MsgType := "listen", Topic := "t", Message := "" } true]).1 :=
  ⟨by decide, fun _ =>
    ⟨rfl, (by decide : ConnEvent.close ∉ [ConnEvent.listenTopic "t"])⟩⟩

/-- C16 (amended): the reader task invokes `close()` exactly when a read fails
or a reply of the client (type `ack` or `error` once lower-cased) is not taken
from the receiver channel within `processingTimeout`; it returns exactly when
it has invoked `close()`; and a reply that is not taken is answered by
`close()` right after the offer, with no further frame read. -/
theorem close_on_unprocessed_reply (lowerTable : Char → Char)
    (errorFromClient : String → String) (reads : List ReadResult) :
    (ConnEvent.close ∈ (listen lowerTable errorFromClient reads).1 ↔
        ∃ r ∈ reads, (∃ e, r = ReadResult.failure e) ∨
          (∃ msg, r = ReadResult.frame msg false ∧
            (toLower lowerTable msg.MsgType = "ack" ∨
              toLower lowerTable msg.MsgType = "error"))) ∧
      ((listen lowerTable errorFromClient reads).2 = TaskEnd.returned ↔
        ConnEvent.close ∈ (listen lowerTable errorFromClient reads).1) ∧
      (∀ msg rest, toLower lowerTable msg.MsgType = "ack" →
        listen lowerTable errorFromClient (ReadResult.frame msg false :: rest) =
          ([ConnEvent.offered msg.Topic none, ConnEvent.close, ConnEvent.close],
            TaskEnd.returned)) ∧
      (∀ msg rest, toLower lowerTable msg.MsgType = "error" →
        listen lowerTable errorFromClient (ReadResult.frame msg false :: rest) =
          ([ConnEvent.offered msg.Topic (some (errorFromClient msg.Message)),
              ConnEvent.close, ConnEvent.close],
            TaskEnd.returned)) := by
  refine ⟨listen_close_iff lowerTable errorFromClient reads,
    listen_returned_iff lowerTable errorFromClient reads, ?_, ?_⟩
  · intro msg rest h
    have h1 : toLower lowerTable msg.MsgType ≠ "listen" := by rw [h]; decide
    have h2 : toLower lowerTable msg.MsgType ≠ "listenreplies" := by rw [h]; decide
    rw [listen]
    simp [handleFrame, handleAckOrError, h, h1, h2]
  · intro msg rest h
    have h1 : toLower lowerTable msg.MsgType ≠ "listen" := by rw [h]; decide
    have h2 : toLower lowerTable msg.MsgType ≠ "listenreplies" := by rw [h]; decide
    have h3 : toLower lowerTable msg.MsgType ≠ "ack" := by rw [h]; decide
    rw [listen]
    simp [handleFrame, handleAckOrError, h, h1, h2, h3]

/-- Witness of C16 (amended): with the Kelvin sign lowered to `k`, a reply of
type `AC` followed by U+212A that is not taken in time closes the connection. -/
theorem close_on_unprocessed_reply_witness :
    toLower sampleLowerTable "AC\u212A" = "ack" ∧
      listen sampleLowerTable sampleErrorFromClient
          [ReadResult.frame { MsgType := "AC\u212A", Topic := "t", Message := "" } false,
           ReadResult.frame { MsgType := "ack", Topic := "t", Message := "" } true] =
        ([ConnEvent.offered "t" none, ConnEvent.close, ConnEvent.close], TaskEnd.returned) :=
  ⟨by decide,
    (close_on_unprocessed_reply sampleLowerTable sampleErrorFromClient []).2.2.1
      { MsgType := "AC\u212A", Topic := "t", Message := "" } _ (by decide)⟩

/-- C17: `ValidateConf` returns an error exactly when the HTTP port is 0 or the
RPC config path is empty; without an error the local address is `0.0.0.0` if
it was empty and otherwise unchanged, and every other field is unchanged; with
an error the configuration is unchanged. -/
theorem ValidateConf_spec {ω : Type} (config : RESTGatewayConf ω) :
    ((ValidateConf config).2 ≠ none ↔
        (config.HTTP.Port = 0 ∨ config.RPC.ConfigPath = "")) ∧
      ((ValidateConf config).2 = none →
        (ValidateConf config).1.HTTP.LocalAddr =
            (if config.HTTP.LocalAddr = "" then "0.0.0.0" else config.HTTP.LocalAddr) ∧
          (ValidateConf config).1.HTTP.Port = config.HTTP.Port ∧
          (ValidateConf config).1.RPC = config.RPC ∧
          (ValidateConf config).1.others = config.others) ∧
      ((ValidateConf config).2 ≠ none → (ValidateConf config).1 = config) := by
  unfold ValidateConf
  by_cases hp : config.HTTP.Port = 0
  · simp [hp]
  · by_cases hr : config.RPC.ConfigPath = ""
    · simp [hp, hr]
    · by_cases hl : config.HTTP.LocalAddr = ""
      · simp [hp, hr, hl]
      · simp [hp, hr, hl]

/-- C18: `GetEvents` returns one entry per chaincode event of the block; each
entry carries the number of the block header, the position of its transaction
in the block (0 for the first) and the chaincode ID, event name, transaction
ID and timestamp of its chaincode event. -/
theorem GetEvents_spec (block : Block) :
    (GetEvents block).length = (block.Data.map List.length).sum ∧
      (∀ entry ∈ GetEvents block, entry.BlockNumber = block.Number ∧
        ∃ (i : Nat) (tx : List ChaincodeEvent) (ev : ChaincodeEvent),
          block.Data[i]? = some tx ∧ ev ∈ tx ∧ entry.TransactionIndex = (i : Int) ∧
            entry.ChaincodeID = ev.ChaincodeID ∧ entry.EventName = ev.EventName ∧
            entry.TransactionID = ev.TxID ∧ entry.Timestamp = ev.Timestamp) ∧
      (∀ (i : Nat) (tx : List ChaincodeEvent) (ev : ChaincodeEvent),
        block.Data[i]? = some tx → ev ∈ tx →
        ∃ entry ∈ GetEvents block, entry.BlockNumber = block.Number ∧
          entry.TransactionIndex = (i : Int) ∧
          entry.ChaincodeID = ev.ChaincodeID ∧ entry.EventName = ev.EventName ∧
          entry.TransactionID = ev.TxID ∧ entry.Timestamp = ev.Timestamp) := by
  refine ⟨eventsOfTxs_length _ _ 0, ?_, ?_⟩
  · intro entry h
    obtain ⟨h1, i, tx, ev, hi, hev, h2, h3⟩ := mem_eventsOfTxs _ _ _ 0 h
    exact ⟨h1, i, tx, ev, hi, hev, by simpa using h2, h3⟩
  · intro i tx ev hi hev
    obtain ⟨entry, hmem, h1, h2, h3⟩ := eventsOfTxs_of_mem block.Number block.Data ev i 0 tx hi hev
    exact ⟨entry, hmem, h1, by simpa using h2, h3⟩

/-- Witness of C18: the block of `TestGetEvents` yields the one entry the test
expects. -/
theorem GetEvents_spec_witness :
    (GetEvents sampleBlock).length = (sampleBlock.Data.map List.length).sum ∧
      (GetEvents sampleBlock).map
          (fun e => (e.ChaincodeID, e.BlockNumber, e.EventName, e.TransactionIndex,
            e.Timestamp)) =
        [("asset_transfer", 16, "AssetCreated", 0, 1641861241312746000)] :=
  ⟨(GetEvents_spec sampleBlock).1, by decide⟩

/-- C19: for `n` topics `buildCases` returns `n + 3` receive cases, the last
three being the broadcast, the closing and the newTopic channel in this order;
the chosen case is the newTopic channel exactly when its index is the last
one; a receive that reports a closed channel ends the loop, a receive on the
last case rebuilds the case list and writes nothing, and every other receive
writes the received value to the socket once. -/
theorem sender_wait_set (topics : List String) :
    (buildCases topics).length = topics.length + 3 ∧
      (buildCases topics).drop topics.length =
        [Chan.broadcast, Chan.closing, Chan.newTopic] ∧
      (∀ chosen, (buildCases topics)[chosen]? = some Chan.newTopic ↔
        chosen = (buildCases topics).length - 1) ∧
      (∀ r rest, r.ok = false →
        senderLoop (buildCases topics) (r :: rest) =
          ([SenderEvent.close], TaskEnd.returned)) ∧
      (∀ r rest, r.ok = true → r.chosen = (buildCases topics).length - 1 →
        senderLoop (buildCases topics) (r :: rest) =
          senderLoop (buildCases r.topics) rest) ∧
      (∀ r rest, r.ok = true → r.chosen ≠ (buildCases topics).length - 1 →
        senderLoop (buildCases topics) (r :: rest) =
          (SenderEvent.writeJSON r.value :: (senderLoop (buildCases topics) rest).1,
            (senderLoop (buildCases topics) rest).2)) := by
  refine ⟨buildCases_length topics, ?_, buildCases_newTopic topics, ?_, ?_, ?_⟩
  · unfold buildCases
    rw [List.drop_append_of_le_length (by simp)]
    simp
  · intro r rest hok
    rw [senderLoop]
    simp [hok]
  · intro r rest hok hch
    rw [senderLoop]
    simp [hok, hch]
  · intro r rest hok hch
    rw [senderLoop]
    simp [hok, hch]

/-- Witness of C19: two topics; a message for the first one is written, the
newTopic signal writes nothing and brings in the third topic, whose message is
written next, and a closed channel ends the task. -/
theorem sender_wait_set_witness :
    buildCases ["a", "b"] = [Chan.senderChannel "a", Chan.senderChannel "b", Chan.broadcast,
        Chan.closing, Chan.newTopic] ∧
      (buildCases ["a", "b"]).length = ["a", "b"].length + 3 ∧
      sender ["a", "b"]
          [{ chosen := 0, value := "m1", ok := true, topics := ["a", "b"] },
           { chosen := 4, value := "true", ok := true, topics := ["a", "b", "c"] },
           { chosen := 2, value := "m2", ok := true, topics := ["a", "b", "c"] },
           { chosen := 4, value := "", ok := false, topics := ["a", "b", "c"] }] =
        ([SenderEvent.writeJSON "m1", SenderEvent.writeJSON "m2", SenderEvent.close],
          TaskEnd.returned) :=
  ⟨by decide, (sender_wait_set ["a", "b"]).1, by decide⟩

end Fabconnect
